import Mathlib

/-!
Verification of the architecture-diagram CI scripts
(`scripts/generate_architecture.py` and `scripts/graph_diff.py`).

The Python sources are shallowly embedded below: JSON documents become an
inductive value type with a strict fuel-based reader, dictionaries become
association lists with Python's overwrite-on-reinsert semantics, regex
driven text extraction becomes explicit character-list scanners that
implement the concrete patterns used by the scripts, and fallible code
returns `Except`.  Theorems about the claims of the specification follow
the definitions.
-/

set_option maxHeartbeats 1000000
set_option maxRecDepth 100000

/-! ## Basic character and string utilities -/

/-- Python `\s` character class (ASCII range, as used by `re` on these inputs). -/
def isPySpace (c : Char) : Bool :=
  c = ' ' || c = '\t' || c = '\n' || c = '\r' || c = '\x0b' || c = '\x0c'

/-- Python `\w` character class (ASCII range). -/
def isWordChar (c : Char) : Bool :=
  c.isAlphanum || c = '_'

/-- JSON whitespace accepted by `json.loads` between tokens. -/
def isJsonWs (c : Char) : Bool :=
  c = ' ' || c = '\t' || c = '\n' || c = '\r'

/-- Index of the first occurrence of `pat` in the character list, if any. -/
def findSubIdx (pat : List Char) : List Char → Option Nat
  | [] => if pat.isPrefixOf ([] : List Char) then some 0 else none
  | c :: t =>
    if pat.isPrefixOf (c :: t) then some 0
    else (findSubIdx pat t).map (· + 1)

/-- Python's substring containment `sub in hay` on character lists. -/
def containsSubL (hay pat : List Char) : Bool :=
  (findSubIdx pat hay).isSome

/-- Python's substring containment `sub in hay` on strings. -/
def containsStr (hay sub : String) : Bool :=
  containsSubL hay.toList sub.toList

/-- Python `str.strip()` (whitespace strip at both ends). -/
def pyStrip (s : String) : String :=
  ⟨((s.toList.dropWhile isPySpace).reverse.dropWhile isPySpace).reverse⟩

/-- Python `s.rstrip("/").rsplit("/", 1)[-1]`: last path segment after
dropping trailing slashes; the whole string when no slash remains. -/
def lastSegment (s : String) : String :=
  let t := (s.toList.reverse.dropWhile (· = '/'))
  ⟨(t.takeWhile (· ≠ '/')).reverse⟩

/-- Decimal digits of a natural number (fuel-based so it reduces in the kernel). -/
def natDigits (fuel n : Nat) : List Char :=
  match fuel with
  | 0 => []
  | f + 1 =>
    if n < 10 then [Char.ofNat (48 + n)]
    else natDigits f (n / 10) ++ [Char.ofNat (48 + n % 10)]

/-- Decimal rendering of a natural number, mirrors Python `str(n)`. -/
def natToStr (n : Nat) : String :=
  ⟨natDigits (n + 1) n⟩

/-- Lowercasing as Python `str.lower()` behaves on the ASCII type strings here. -/
def lowerStr (s : String) : String :=
  ⟨s.toList.map Char.toLower⟩

/-- Prefix test on strings (Python `str.startswith`). -/
def startsWithStr (s pre : String) : Bool :=
  pre.toList.isPrefixOf s.toList

/-! ## JSON documents -/

/-- JSON values as produced by `json.loads`.  Numbers keep their source
lexeme; none of the verified claims depends on numeric normalisation. -/
inductive JVal where
  | null : JVal
  | bool (b : Bool) : JVal
  | num (lexeme : String) : JVal
  | str (s : String) : JVal
  | arr (elems : List JVal) : JVal
  | obj (fields : List (String × JVal)) : JVal

/-- Hexadecimal digit test. -/
def isHexChar (c : Char) : Bool :=
  c.isDigit || ('a' ≤ c && c ≤ 'f') || ('A' ≤ c && c ≤ 'F')

/-- Association-list lookup, mirrors `dict.get` for dictionaries whose keys
are unique (the insert operation below keeps them unique). -/
def assocGet {α : Type} (l : List (String × α)) (k : String) : Option α :=
  (l.find? (fun p => p.1 == k)).map Prod.snd

/-- Python `d[k] = v` on a dict: overwrite in place when the key exists,
append otherwise (insertion order is preserved, first occurrence wins for
position, last assignment wins for the value). -/
def dictInsert {α : Type} (l : List (String × α)) (k : String) (v : α) :
    List (String × α) :=
  if l.any (fun p => p.1 == k) then
    l.map (fun p => if p.1 == k then (k, v) else p)
  else l ++ [(k, v)]

/-- Python's `str(x)`-flavoured rendering used where the scripts interpolate
a JSON field that is normally a string. -/
def jToKey : JVal → String
  | .str s => s
  | .num l => l
  | .bool true => "True"
  | .bool false => "False"
  | .null => "None"
  | .arr _ => "<arr>"
  | .obj _ => "<obj>"

/-- Python truthiness of a JSON value. -/
def jTruthy : JVal → Bool
  | .null => false
  | .bool b => b
  | .str s => !(s == "")
  | .num l => !(l.toList.all fun c =>
      c = '0' || c = '.' || c = '-' || c = '+' || c = 'e' || c = 'E')
  | .arr xs => !xs.isEmpty
  | .obj kvs => !kvs.isEmpty

/-- Faithful `x.get(k)` for code paths where calling `.get` on a non-dict
raises `AttributeError` (modelled as `Except.error`). -/
def jGetE (j : JVal) (k : String) : Except String (Option JVal) :=
  match j with
  | .obj kvs => .ok (assocGet kvs k)
  | _ => .error "AttributeError: get on non-object"

/-- Faithful `x.get(k, d)` (raises on non-dict receivers). -/
def jGetDE (j : JVal) (k : String) (d : JVal) : Except String JVal :=
  match j with
  | .obj kvs => .ok ((assocGet kvs k).getD d)
  | _ => .error "AttributeError: get on non-object"

/-- Total variant of `x.get(k, d)`: where Python would raise on a non-dict
receiver this returns the default.  Used only in the renderer paths whose
claims never touch non-dict resource values. -/
def jGetT (j : JVal) (k : String) (d : JVal) : JVal :=
  match j with
  | .obj kvs => (assocGet kvs k).getD d
  | _ => d

/-- String-valued attribute of a resource dict (empty string default). -/
def jStrAttr (j : JVal) (k : String) : String :=
  jToKey (jGetT j k (.str ""))

/-- Python iteration as used on `data.get(...)` results: lists iterate their
elements, dicts iterate their keys (as strings), strings iterate their
characters (as one-character strings); other values raise `TypeError`. -/
def jIter (j : JVal) : Except String (List JVal) :=
  match j with
  | .arr xs => .ok xs
  | .obj kvs => .ok (kvs.map (fun p => .str p.1))
  | .str s => .ok (s.toList.map (fun c => .str ⟨[c]⟩))
  | _ => .error "TypeError: not iterable"

/-! ## Strict JSON reader (models `json.loads`) -/

/-- Read a JSON string body after the opening quote, handling the standard
escapes, returning the decoded string and the rest of the input. -/
def pStringAux (fuel : Nat) (cs : List Char) (acc : List Char) :
    Except String (String × List Char) :=
  match fuel, cs with
  | 0, _ => .error "string: fuel exhausted"
  | _, [] => .error "unterminated string"
  | f + 1, c :: rest =>
    if c = '"' then .ok (⟨acc.reverse⟩, rest)
    else if c = '\\' then
      match rest with
      | [] => .error "bad escape"
      | e :: rest2 =>
        if e = '"' then pStringAux f rest2 ('"' :: acc)
        else if e = '\\' then pStringAux f rest2 ('\\' :: acc)
        else if e = '/' then pStringAux f rest2 ('/' :: acc)
        else if e = 'n' then pStringAux f rest2 ('\n' :: acc)
        else if e = 't' then pStringAux f rest2 ('\t' :: acc)
        else if e = 'r' then pStringAux f rest2 ('\r' :: acc)
        else if e = 'b' then pStringAux f rest2 ('\x08' :: acc)
        else if e = 'f' then pStringAux f rest2 ('\x0c' :: acc)
        else if e = 'u' then
          match rest2 with
          | a :: b :: c2 :: d :: rest3 =>
            match isHexChar a && isHexChar b && isHexChar c2 && isHexChar d with
            | true =>
              let v := 4096 * (a.toNat % 16 + 9 * (a.toNat / 64 % 2))
                + 256 * (b.toNat % 16 + 9 * (b.toNat / 64 % 2))
                + 16 * (c2.toNat % 16 + 9 * (c2.toNat / 64 % 2))
                + (d.toNat % 16 + 9 * (d.toNat / 64 % 2))
              pStringAux f rest3 (Char.ofNat v :: acc)
            | false => .error "bad unicode escape"
          | _ => .error "bad unicode escape"
        else .error "bad escape"
    else pStringAux f rest (c :: acc)

/-- Read a JSON number lexeme (strict grammar, as `json.loads`). -/
def pNumLex (cs : List Char) : Except String (String × List Char) :=
  let (sign, cs1) :=
    match cs with
    | '-' :: t => (['-'], t)
    | _ => (([] : List Char), cs)
  let intPart := cs1.takeWhile Char.isDigit
  if intPart.isEmpty then .error "bad number"
  else if intPart.length > 1 && intPart.headD '0' = '0' then .error "bad number"
  else
    let cs2 := cs1.drop intPart.length
    let (fracPart, cs3) :=
      match cs2 with
      | '.' :: t =>
        let ds := t.takeWhile Char.isDigit
        if ds.isEmpty then (none, cs2) else (some ('.' :: ds), t.drop ds.length)
      | _ => (none, cs2)
    match fracPart, cs2 with
    | none, '.' :: _ => .error "bad number"
    | _, _ =>
      let fracChars := fracPart.getD []
      let (expPart, cs4) :=
        match cs3 with
        | e :: t =>
          if e = 'e' || e = 'E' then
            let (sgn, t2) :=
              match t with
              | s :: t2 => if s = '+' || s = '-' then ([s], t2) else ([], t)
              | [] => ([], t)
            let ds := t2.takeWhile Char.isDigit
            if ds.isEmpty then (none, cs3)
            else (some (e :: (sgn ++ ds)), t2.drop ds.length)
          else (none, cs3)
        | [] => (none, cs3)
      match expPart, cs3 with
      | none, e :: _ =>
        if e = 'e' || e = 'E' then .error "bad number"
        else .ok (⟨sign ++ intPart ++ fracChars⟩, cs3)
      | _, _ =>
        .ok (⟨sign ++ intPart ++ fracChars ++ expPart.getD []⟩, cs4)

/-- Task selector for the single fuel-structural JSON reading function. -/
inductive PTask where
  | val : PTask
  | arrRest (acc : List JVal) : PTask
  | objRest (acc : List (String × JVal)) : PTask

/-- One strict recursive descent over the input; `fuel` decreases at every
recursive call so the definition is structural and kernel-evaluable. -/
def pstep (fuel : Nat) (t : PTask) (cs : List Char) :
    Except String (JVal × List Char) :=
  match fuel with
  | 0 => .error "fuel exhausted"
  | f + 1 =>
    match t with
    | .val =>
      let cs := cs.dropWhile isJsonWs
      match cs with
      | [] => .error "unexpected end of input"
      | c :: rest =>
        if c = 'n' then
          if ['u', 'l', 'l'].isPrefixOf rest then .ok (.null, rest.drop 3)
          else .error "bad literal"
        else if c = 't' then
          if ['r', 'u', 'e'].isPrefixOf rest then .ok (.bool true, rest.drop 3)
          else .error "bad literal"
        else if c = 'f' then
          if ['a', 'l', 's', 'e'].isPrefixOf rest then .ok (.bool false, rest.drop 4)
          else .error "bad literal"
        else if c = '"' then do
          let (s, r) ← pStringAux (rest.length + 1) rest []
          .ok (.str s, r)
        else if c = '[' then
          let r1 := rest.dropWhile isJsonWs
          match r1 with
          | ']' :: r2 => .ok (.arr [], r2)
          | _ => do
            let (v, r2) ← pstep f .val r1
            pstep f (.arrRest [v]) r2
        else if c = '\x7b' then
          let r1 := rest.dropWhile isJsonWs
          match r1 with
          | '\x7d' :: r2 => .ok (.obj [], r2)
          | '"' :: r2 => do
            let (k, r3) ← pStringAux (r2.length + 1) r2 []
            let r4 := r3.dropWhile isJsonWs
            match r4 with
            | ':' :: r5 => do
              let (v, r6) ← pstep f .val r5
              pstep f (.objRest [(k, v)]) r6
            | _ => .error "expected colon"
          | _ => .error "expected key"
        else if c = '-' || c.isDigit then do
          let (lex, r) ← pNumLex (c :: rest)
          .ok (.num lex, r)
        else .error "unexpected character"
    | .arrRest acc =>
      let cs := cs.dropWhile isJsonWs
      match cs with
      | ']' :: r => .ok (.arr acc, r)
      | ',' :: r => do
        let (v, r2) ← pstep f .val r
        pstep f (.arrRest (acc ++ [v])) r2
      | _ => .error "expected comma or end of array"
    | .objRest acc =>
      let cs := cs.dropWhile isJsonWs
      match cs with
      | '\x7d' :: r => .ok (.obj acc, r)
      | ',' :: r =>
        let r1 := r.dropWhile isJsonWs
        match r1 with
        | '"' :: r2 => do
          let (k, r3) ← pStringAux (r2.length + 1) r2 []
          let r4 := r3.dropWhile isJsonWs
          match r4 with
          | ':' :: r5 => do
            let (v, r6) ← pstep f .val r5
            pstep f (.objRest (dictInsert acc k v)) r6
          | _ => .error "expected colon"
        | _ => .error "expected key"
      | _ => .error "expected comma or end of object"

/-- Model of `json.loads`: parse one JSON document, allow surrounding
whitespace, reject trailing data. -/
def jsonLoads (s : String) : Except String JVal :=
  let cs := s.toList
  match pstep (2 * cs.length + 16) .val cs with
  | .error e => .error e
  | .ok (v, rest) =>
    if (rest.dropWhile isJsonWs).isEmpty then .ok v
    else .error "extra data"

/-! ## Deterministic serialization (models `json.dumps(..., sort_keys=True)`) -/

/-- Escape a character for a JSON string literal (quotes and backslashes,
which is what keeps the serialization injective on these documents). -/
def jEscChar (c : Char) : List Char :=
  if c = '"' then ['\\', '"']
  else if c = '\\' then ['\\', '\\'] else [c]

/-- Quoted, escaped JSON string literal. -/
def jQuote (s : String) : String :=
  ⟨'"' :: (s.toList.flatMap jEscChar ++ ['"'])⟩

/-- Stable insertion by key used for `sort_keys=True`. -/
def insertByKey (p : String × String) :
    List (String × String) → List (String × String)
  | [] => [p]
  | q :: t => if p.1 ≤ q.1 then p :: q :: t else q :: insertByKey p t

/-- Sort an association list of rendered fields by key. -/
def sortByKey (l : List (String × String)) : List (String × String) :=
  l.foldr insertByKey []

/-- Comma-join a list of rendered items. -/
def commaJoin : List String → String
  | [] => ""
  | [x] => x
  | x :: y :: t => x ++ "," ++ commaJoin (y :: t)

mutual

/-- Deterministic rendering of a JSON value with sorted object keys; two
values render equal iff `json.dumps(x, sort_keys=True)` renders them equal. -/
def jdumps : JVal → String
  | .null => "null"
  | .bool true => "true"
  | .bool false => "false"
  | .num l => l
  | .str s => jQuote s
  | .arr xs => "[" ++ commaJoin (jdumpsList xs) ++ "]"
  | .obj kvs =>
    "\x7b" ++ commaJoin ((sortByKey (jdumpsObj kvs)).map
      (fun p => jQuote p.1 ++ ":" ++ p.2)) ++ "\x7d"

/-- Render every element of a JSON array. -/
def jdumpsList : List JVal → List String
  | [] => []
  | x :: t => jdumps x :: jdumpsList t

/-- Render every field value of a JSON object. -/
def jdumpsObj : List (String × JVal) → List (String × String)
  | [] => []
  | (k, v) :: t => (k, jdumps v) :: jdumpsObj t

end

/-! ## Embedding of `scripts/graph_diff.py` -/

/-- Normalised graph as produced by `parse_graph`: a resource dictionary
keyed by id and an ordered connection list of `(sourceId, targetId)` pairs. -/
structure GraphD where
  resources : List (String × JVal)
  connections : List (String × String)

/-- Set of resource ids of a graph. -/
def graph_ids (g : GraphD) : Finset String :=
  (g.resources.map Prod.fst).toFinset

/-- Truthiness test Python applies to the optional raw file contents. -/
def pyFalsyStr (o : Option String) : Bool :=
  match o with
  | none => true
  | some s => s == ""

/-- Embedding of `parse_graph` (graph_diff.py lines 59-71): `None` or empty
input yields the empty graph; otherwise the input is parsed by `json.loads`
(whose exceptions propagate, there is no handler), resources are keyed by
`id` falling back to `name` then `""`, and every connection whose `type` is
not `"dependsOn"` contributes a `(sourceId, targetId)` pair. -/
def parse_graph (raw : Option String) : Except String GraphD :=
  match raw with
  | none => .ok ⟨[], []⟩
  | some s =>
    if s == "" then .ok ⟨[], []⟩
    else do
      let data ← jsonLoads s
      let resJ ← jGetDE data "resources" (.arr [])
      let items ← jIter resJ
      let resources ← items.foldlM (fun (acc : List (String × JVal)) r => do
        let idOpt ← jGetE r "id"
        let nameOpt ← jGetE r "name"
        let key :=
          match idOpt with
          | some j => jToKey j
          | none =>
            match nameOpt with
            | some j => jToKey j
            | none => ""
        pure (dictInsert acc key r)) []
      let connJ ← jGetDE data "connections" (.arr [])
      let citems ← jIter connJ
      let connections ← citems.foldlM (fun (acc : List (String × String)) c => do
        let ty ← jGetE c "type"
        match ty with
        | some (.str "dependsOn") => pure acc
        | _ => do
          let sj ← jGetDE c "sourceId" (.str "")
          let tj ← jGetDE c "targetId" (.str "")
          pure (acc ++ [(jToKey sj, jToKey tj)])) []
      .ok ⟨resources, connections⟩

/-- Embedding of `categorize` (graph_diff.py lines 120-129): lowercase the
declared type and test fixed substrings. -/
def categorize (res_type : String) : String :=
  let t := lowerStr res_type
  if containsStr t "containers" then "container"
  else if containsStr t "rediscaches" || containsStr t "sqldatabases"
      || containsStr t "mongodatabases" then "datastore"
  else if containsStr t "applications" && !(containsStr t "containers") then
    "application"
  else "other"

/-- Embedding of `safe_node_id`: replace every "-" and "." with "_". -/
def safe_node_id (name : String) : String :=
  ⟨name.toList.map (fun c => if c = '-' || c = '.' then '_' else c)⟩

/-- Single-quote character, used by the textual patterns below. -/
def sqc : Char := Char.ofNat 39

/-- Match of the pattern `\[reference\('(\w+)'\)` at the start of a string
(the ARM-expression unwrapping step), returning the inner identifier. -/
def armRefSym (s : String) : Option String :=
  let cs := s.toList
  let lit := ('[' :: "reference(".toList) ++ [sqc]
  if lit.isPrefixOf cs then
    let rest := cs.drop lit.length
    let w := rest.takeWhile isWordChar
    if w.isEmpty then none
    else if (sqc :: [')']).isPrefixOf (rest.drop w.length) then some ⟨w⟩
    else none
  else none

/-- Match of the pattern `https?://([^:/]+)` at the start of a string,
returning the hostname. -/
def urlHost (s : String) : Option String :=
  let cs := s.toList
  if "https://".toList.isPrefixOf cs then
    let host := (cs.drop 8).takeWhile (fun c => c ≠ ':' && c ≠ '/')
    if host.isEmpty then none else some ⟨host⟩
  else if "http://".toList.isPrefixOf cs then
    let host := (cs.drop 7).takeWhile (fun c => c ≠ ':' && c ≠ '/')
    if host.isEmpty then none else some ⟨host⟩
  else none

/-- Embedding of `resolve_name` (graph_diff.py lines 74-95): direct id
lookup, then ARM-expression unwrapping, then URL hostname extraction (both
return their extracted identifier whether or not a resource carries that
name), then the last path segment. -/
def resolve_name (res_id : String) (resources : List (String × JVal)) : String :=
  match assocGet resources res_id with
  | some r => jToKey (jGetT r "name" (.str res_id))
  | none =>
    match armRefSym res_id with
    | some sym => sym
    | none =>
      match urlHost res_id with
      | some h => h
      | none => lastSegment res_id

/-- Diff summary computed by `diff_graphs`. -/
structure DiffResult where
  added : Finset String
  removed : Finset String
  modified : Finset String
  unchanged : Finset String
  added_conns : Finset (String × String)
  removed_conns : Finset (String × String)

/-- Resource dictionary indexing `base["resources"][rid]` (total lookup;
`diff_graphs` only indexes ids common to both dictionaries). -/
def dictGetJ (l : List (String × JVal)) (k : String) : JVal :=
  (assocGet l k).getD .null

/-- Embedding of `diff_graphs` (graph_diff.py lines 139-167): set difference
and intersection on resource ids, the modified test by sorted-keys
serialization, and set differences on connection tuples. -/
def diff_graphs (base head : GraphD) : DiffResult :=
  let base_ids := (base.resources.map Prod.fst).toFinset
  let head_ids := (head.resources.map Prod.fst).toFinset
  let common := base_ids ∩ head_ids
  let modified := common.filter (fun rid =>
    jdumps (dictGetJ base.resources rid) ≠ jdumps (dictGetJ head.resources rid))
  let base_conns := base.connections.toFinset
  let head_conns := head.connections.toFinset
  { added := head_ids \ base_ids
    removed := base_ids \ head_ids
    modified := modified
    unchanged := common \ modified
    added_conns := head_conns \ base_conns
    removed_conns := base_conns \ head_conns }

/-- Embedding of the edge loop of `make_mermaid_graph` (graph_diff.py lines
221-231): resolve both endpoints, skip a connection when the resource found
under either raw id has category `"application"`, and emit the Mermaid-safe
resolved names when they differ. -/
def make_mermaid_graph_edges (resources : List (String × JVal)) :
    List (String × String) → List (String × String)
  | [] => []
  | (src_id, tgt_id) :: rest =>
    let src := resolve_name src_id resources
    let tgt := resolve_name tgt_id resources
    let src_res := (assocGet resources src_id).getD (.obj [])
    let tgt_res := (assocGet resources tgt_id).getD (.obj [])
    if categorize (jStrAttr src_res "type") = "application" then
      make_mermaid_graph_edges resources rest
    else if categorize (jStrAttr tgt_res "type") = "application" then
      make_mermaid_graph_edges resources rest
    else if src ≠ tgt then
      (safe_node_id src, safe_node_id tgt) ::
        make_mermaid_graph_edges resources rest
    else make_mermaid_graph_edges resources rest

/-- Outcome of the diff tool's main flow. -/
inductive DiffOutcome where
  | noChanges : DiffOutcome
  | report (base head : GraphD) (d : DiffResult) : DiffOutcome

/-- Embedding of the decision in `main` (graph_diff.py lines 500-512): when
both raw inputs are falsy a "no changes" report is rendered, otherwise both
graphs are parsed (exceptions from `parse_graph` propagate) and diffed. -/
def run_diff (base_raw head_raw : Option String) : Except String DiffOutcome :=
  if pyFalsyStr head_raw && pyFalsyStr base_raw then .ok .noChanges
  else do
    let base ← parse_graph base_raw
    let head ← parse_graph head_raw
    .ok (.report base head (diff_graphs base head))

/-- Success test for an `Except` value. -/
def exceptIsOk {ε α : Type} (e : Except ε α) : Bool :=
  match e with
  | .ok _ => true
  | .error _ => false

/-! ## Embedding of `scripts/generate_architecture.py` -/

/-- Resource record as assembled by `parse_bicep` and
`parse_rad_graph_output` (line numbers kept in printed form). -/
structure ResourceRec where
  symbolic_name : String
  display_name : String
  resource_type : String
  image : Option String
  port : Option String
  category : String
  line_number : String
  source_file : Option String
deriving DecidableEq

/-- Resolved connection record `{"from": ..., "to": ...}`. -/
structure ConnRec where
  cfrom : String
  cto : String
deriving DecidableEq

/-- Pre-resolution connection entry of `parse_bicep`: either a hostname
entry `{"from": ..., "to_hostname": ...}` or a direct entry
`{"from": ..., "to": ...}`. -/
inductive BicepConn where
  | host (cfrom hostname : String) : BicepConn
  | direct (cfrom cto : String) : BicepConn
deriving DecidableEq

/-- Suffix test on strings (Python `str.endswith`). -/
def endsWithStr (s sfx : String) : Bool :=
  sfx.toList.isSuffixOf s.toList

/-- Category chain inlined in `parse_bicep` (lines 148-159). -/
def bicep_category (resource_type : String) : String :=
  if containsStr (lowerStr resource_type) "containers" then "container"
  else if containsStr (lowerStr resource_type) "rediscaches" then "datastore"
  else if containsStr (lowerStr resource_type) "sqldatabases" then "datastore"
  else if containsStr (lowerStr resource_type) "mongodatabases" then "datastore"
  else if containsStr (lowerStr resource_type) "applications"
      && !(containsStr (lowerStr resource_type) "containers") then "application"
  else "other"

/-- Category chain inlined in `parse_rad_graph_output` (lines 300-307). -/
def rad_category (res_type : String) : String :=
  if containsStr (lowerStr res_type) "containers" then "container"
  else if containsStr (lowerStr res_type) "rediscaches"
      || containsStr (lowerStr res_type) "sqldatabases"
      || containsStr (lowerStr res_type) "mongodatabases" then "datastore"
  else if containsStr (lowerStr res_type) "applications"
      && !(containsStr (lowerStr res_type) "containers") then "application"
  else "other"

/-- Count of newline characters (Python `content[:i].count("\n")`). -/
def countNl (cs : List Char) : Nat :=
  (cs.filter (· = '\n')).length

/-- Attempt of the resource-block pattern
`resource\s+(\w+)\s+'([^']+)'\s*=\s*\{(.*?)\n\}` at the head of the input.
Returns the symbolic name, the type string, the body and the match length. -/
def matchResourceAt (cs : List Char) : Option (String × String × List Char × Nat) :=
  if "resource".toList.isPrefixOf cs then
    let r1 := cs.drop 8
    let ws1 := r1.takeWhile isPySpace
    if ws1.isEmpty then none else
    let r2 := r1.drop ws1.length
    let sym := r2.takeWhile isWordChar
    if sym.isEmpty then none else
    let r3 := r2.drop sym.length
    let ws2 := r3.takeWhile isPySpace
    if ws2.isEmpty then none else
    match r3.drop ws2.length with
    | q :: r5 =>
      if q = sqc then
        let ty := r5.takeWhile (· ≠ sqc)
        if ty.isEmpty then none else
        match r5.drop ty.length with
        | q2 :: r7 =>
          if q2 = sqc then
            let ws3 := r7.takeWhile isPySpace
            match r7.drop ws3.length with
            | '=' :: r9 =>
              let ws4 := r9.takeWhile isPySpace
              match r9.drop ws4.length with
              | b :: r11 =>
                if b = '\x7b' then
                  match findSubIdx ['\n', '\x7d'] r11 with
                  | some idx =>
                    some (⟨sym⟩, ⟨ty⟩, r11.take idx,
                      8 + ws1.length + sym.length + ws2.length + 1 + ty.length
                        + 1 + ws3.length + 1 + ws4.length + 1 + idx + 2)
                  | none => none
                else none
              | [] => none
            | _ => none
          else none
        | [] => none
      else none
    | [] => none
  else none

/-- Non-overlapping left-to-right scan of the resource-block pattern
(`finditer`), also recording the 1-based line number of each match. -/
def bicepScan (fuel : Nat) (cs : List Char) (nl : Nat) :
    List (String × String × List Char × Nat) :=
  match fuel with
  | 0 => []
  | f + 1 =>
    match cs with
    | [] => []
    | c :: rest =>
      match matchResourceAt cs with
      | some (sym, ty, body, len) =>
        (sym, ty, body, nl + 1) :: bicepScan f (cs.drop len) (nl + countNl (cs.take len))
      | none => bicepScan f rest (if c = '\n' then nl + 1 else nl)

/-- Attempt of a `lit\s*'([^']+)'` pattern at the head of the input,
returning the quoted group and the match length. -/
def matchQuotedAt (lit : List Char) (cs : List Char) : Option (String × Nat) :=
  if lit.isPrefixOf cs then
    let r1 := cs.drop lit.length
    let ws := r1.takeWhile isPySpace
    match r1.drop ws.length with
    | q :: r3 =>
      if q = sqc then
        let v := r3.takeWhile (· ≠ sqc)
        if v.isEmpty then none
        else
          match r3.drop v.length with
          | q2 :: _ =>
            if q2 = sqc then
              some (⟨v⟩, lit.length + ws.length + 1 + v.length + 1)
            else none
          | [] => none
      else none
    | [] => none
  else none

/-- First match of a `lit\s*'([^']+)'` pattern anywhere (`re.search`). -/
def searchQuoted (lit : List Char) : List Char → Option String
  | [] => none
  | c :: t =>
    match matchQuotedAt lit (c :: t) with
    | some (v, _) => some v
    | none => searchQuoted lit t

/-- All non-overlapping matches of a `lit\s*'([^']+)'` pattern (`re.findall`). -/
def findallQuoted (fuel : Nat) (lit : List Char) (cs : List Char) : List String :=
  match fuel with
  | 0 => []
  | f + 1 =>
    match cs with
    | [] => []
    | _ :: t =>
      match matchQuotedAt lit cs with
      | some (v, len) => v :: findallQuoted f lit (cs.drop len)
      | none => findallQuoted f lit t

/-- First match of `containerPort:\s*(\d+)` anywhere (`re.search`). -/
def searchNum (lit : List Char) : List Char → Option String
  | [] => none
  | c :: t =>
    (if lit.isPrefixOf (c :: t) then
      let r1 := (c :: t).drop lit.length
      let ws := r1.takeWhile isPySpace
      let ds := (r1.drop ws.length).takeWhile Char.isDigit
      if ds.isEmpty then searchNum lit t else some ⟨ds⟩
    else searchNum lit t)

/-- Body of the non-greedy group of `connections:\s*\{(.*?)\n\s*\}` given
the characters after the opening brace: scan for the first newline whose
next non-whitespace character is a closing brace. -/
def connBodyAux : List Char → List Char → Option (List Char)
  | [], _ => none
  | c :: t, acc =>
    if c = '\n' then
      match t.dropWhile isPySpace with
      | b :: _ =>
        if b = '\x7d' then some acc.reverse else connBodyAux t (c :: acc)
      | [] => connBodyAux t (c :: acc)
    else connBodyAux t (c :: acc)

/-- Attempt of `connections:\s*\{(.*?)\n\s*\}` at the head of the input. -/
def matchConnBlockAt (cs : List Char) : Option (List Char) :=
  if "connections:".toList.isPrefixOf cs then
    let r1 := cs.drop 12
    let ws := r1.takeWhile isPySpace
    match r1.drop ws.length with
    | b :: r3 => if b = '\x7b' then connBodyAux r3 [] else none
    | [] => none
  else none

/-- First match of the connections-block pattern anywhere (`re.search`). -/
def searchConnBlock : List Char → Option (List Char)
  | [] => none
  | c :: t =>
    match matchConnBlockAt (c :: t) with
    | some body => some body
    | none => searchConnBlock t

/-- Attempt of `source:\s*(\w+)\.(id|connectionString)` at the head of the
input, returning the referenced name and the match length. -/
def matchRefAt (cs : List Char) : Option (String × Nat) :=
  if "source:".toList.isPrefixOf cs then
    let r1 := cs.drop 7
    let ws := r1.takeWhile isPySpace
    let w := (r1.drop ws.length).takeWhile isWordChar
    if w.isEmpty then none else
    match (r1.drop (ws.length + w.length)) with
    | '.' :: r4 =>
      if "id".toList.isPrefixOf r4 then
        some (⟨w⟩, 7 + ws.length + w.length + 1 + 2)
      else if "connectionString".toList.isPrefixOf r4 then
        some (⟨w⟩, 7 + ws.length + w.length + 1 + 16)
      else none
    | _ => none
  else none

/-- All non-overlapping matches of the symbolic-reference pattern
(`re.findall`). -/
def findallRefs (fuel : Nat) (cs : List Char) : List String :=
  match fuel with
  | 0 => []
  | f + 1 =>
    match cs with
    | [] => []
    | _ :: t =>
      match matchRefAt cs with
      | some (w, len) => w :: findallRefs f (cs.drop len)
      | none => findallRefs f t

/-- Resource record assembled from one resource-block match of
`parse_bicep` (lines 132-169). -/
def bicepResourceOf (m : String × String × List Char × Nat) : ResourceRec :=
  { symbolic_name := m.1
    display_name := (searchQuoted "name:".toList m.2.2.1).getD m.1
    resource_type := m.2.1
    image := searchQuoted "image:".toList m.2.2.1
    port := searchNum "containerPort:".toList m.2.2.1
    category := bicep_category m.2.1
    line_number := natToStr m.2.2.2
    source_file := none }

/-- Connection entries contributed by one resource block of `parse_bicep`
(lines 171-191): quoted `source:` values inside the connections block
become hostname entries (URL form) or direct entries, then symbolic
`source: name.id`/`.connectionString` references are appended when not
already present. -/
def bicepConnsOf (sym : String) (body : List Char) (acc : List BicepConn) :
    List BicepConn :=
  let acc1 :=
    match searchConnBlock body with
    | some conn_body =>
      (findallQuoted conn_body.length "source:".toList conn_body).foldl
        (fun a source_url =>
          match urlHost source_url with
          | some h => a ++ [BicepConn.host sym h]
          | none => a ++ [BicepConn.direct sym source_url]) acc
    | none => acc
  (findallRefs body.length body).foldl
    (fun a ref_name =>
      let conn : BicepConn := .direct sym ref_name
      if a.contains conn then a else a ++ [conn]) acc1

/-- Final resolution step of `parse_bicep` (lines 193-209): hostname
entries whose hostname matches a resource display name exactly resolve to
that resource's symbolic name, unmatched hostnames are dropped with a
warning, direct entries pass through; nothing is deduplicated here. -/
def resolve_bicep_conns (m : List (String × String)) :
    List BicepConn → List ConnRec
  | [] => []
  | .host f h :: rest =>
    (match assocGet m h with
     | some t => ConnRec.mk f t :: resolve_bicep_conns m rest
     | none => resolve_bicep_conns m rest)
  | .direct f t :: rest => ConnRec.mk f t :: resolve_bicep_conns m rest

/-- Embedding of `parse_bicep` (lines 119-211). -/
def parse_bicep (content : String) : List ResourceRec × List ConnRec :=
  let cs := content.toList
  let mlist := bicepScan cs.length cs 0
  let resources := mlist.map bicepResourceOf
  let connections := mlist.foldl (fun acc m => bicepConnsOf m.1 m.2.2.1 acc) []
  let name_to_symbolic :=
    resources.foldl (fun m r => dictInsert m r.display_name r.symbolic_name) []
  (resources, resolve_bicep_conns name_to_symbolic connections)

/-- Preprocessing of the raw `rad app graph` output (lines 241-249): strip
whitespace, then drop any non-JSON prefix before the first brace. -/
def rad_preprocess (raw0 : String) : String :=
  let raw1 := pyStrip raw0
  match findSubIdx ['\x7b'] raw1.toList with
  | some j => if j > 0 then ⟨raw1.toList.drop j⟩ else raw1
  | none => raw1

/-- Source-id resolution in the connection loop of `parse_rad_graph_output`
(lines 333-341): direct id lookup, then a suffix match on the last path
segment; empty when nothing matches. -/
def rad_resolve_source (source_id : String)
    (id_to_name : List (String × String)) : String :=
  let s0 := (assocGet id_to_name source_id).getD ""
  if s0 ≠ "" then s0
  else
    let source_last :=
      if containsStr source_id "/" then lastSegment source_id else source_id
    match id_to_name.find? (fun p => endsWithStr p.1 ("/" ++ source_last)) with
    | some p => p.2
    | none => ""

/-- Target-id resolution in the connection loop of `parse_rad_graph_output`
(lines 343-380): direct id lookup, ARM-expression unwrapping matched
against known names, URL hostname matching by substring in either
direction with the literal hostname as fallback, then a plain last-segment
match with the segment itself as fallback. -/
def rad_resolve_target (target_id : String)
    (id_to_name : List (String × String)) : String :=
  let t0 := (assocGet id_to_name target_id).getD ""
  if t0 ≠ "" then t0
  else
    let t1 :=
      match armRefSym target_id with
      | some sym =>
        match (id_to_name.map Prod.snd).find? (fun rn => rn == sym) with
        | some rn => rn
        | none => ""
      | none => ""
    if t1 ≠ "" then t1
    else
      let t2 :=
        match urlHost target_id with
        | some h =>
          match (id_to_name.map Prod.snd).find? (fun rn =>
            containsStr rn h || containsStr h rn) with
          | some rn => rn
          | none => h
        | none => ""
      if t2 ≠ "" then t2
      else
        let target_last :=
          if containsStr target_id "/" then lastSegment target_id
          else target_id
        match id_to_name.find? (fun p =>
          endsWithStr p.1 ("/" ++ target_last) || p.2 == target_last) with
        | some p => p.2
        | none => target_last

/-- Accumulator of the resource loop of `parse_rad_graph_output`. -/
structure RadAcc where
  resources : List ResourceRec
  id_to_name : List (String × String)
  bicep : Option String

/-- Python falsiness of the inferred bicep filename. -/
def radBicepFalsy (b : Option String) : Bool :=
  match b with
  | none => true
  | some s => s == ""

/-- First container port accepted by the port scan (lines 290-297). -/
def rad_find_port : List JVal → Option String
  | [] => none
  | e :: t =>
    match e with
    | .obj kvs =>
      (match assocGet kvs "containerPort" with
       | some cp =>
         if jTruthy cp && !(startsWithStr (jToKey cp) "[") then some (jToKey cp)
         else rad_find_port t
       | none => rad_find_port t)
    | _ => rad_find_port t

/-- One step of the resource loop of `parse_rad_graph_output` (lines
267-321): read the fields with their defaults, drop ARM-parameter images,
pick the first container port, categorize, and extend the id-to-name map
when the resource has a non-empty id. -/
def rad_build_resource (acc : RadAcc) (res : JVal) : Except String RadAcc := do
  let nameJ ← jGetDE res "name" (.str "unknown")
  let name := jToKey nameJ
  let tyJ ← jGetDE res "type" (.str "")
  let res_type ←
    match tyJ with
    | .str s => Except.ok s
    | _ => Except.error "AttributeError: lower on non-string"
  let idJ ← jGetDE res "id" (.str "")
  let res_id := jToKey idJ
  let props ← jGetDE res "properties" (.obj [])
  let source_loc ← jGetDE res "sourceLocation" (.obj [])
  let lineJ ← jGetDE source_loc "line" (.num "0")
  let fileJ ← jGetDE source_loc "file" (.str "")
  let source_file := jToKey fileJ
  let bicep1 :=
    if radBicepFalsy acc.bicep && source_file ≠ "" then some source_file
    else acc.bicep
  let container ← jGetDE props "container" (.obj [])
  let imageO ← jGetE container "image"
  let image ←
    match imageO with
    | none => Except.ok none
    | some .null => Except.ok none
    | some (.str s) =>
      Except.ok (if startsWithStr s "[" then none else some s)
    | some j =>
      if jTruthy j then Except.error "AttributeError: startswith on non-string"
      else Except.ok none
  let portsJ ← jGetDE container "ports" (.obj [])
  let portVals ←
    match portsJ with
    | .obj kvs => Except.ok (kvs.map Prod.snd)
    | _ => Except.error "AttributeError: values on non-dict"
  let r : ResourceRec :=
    { symbolic_name := name
      display_name := name
      resource_type := res_type
      image := image
      port := rad_find_port portVals
      category := rad_category res_type
      line_number := jToKey lineJ
      source_file := some source_file }
  let id_to_name1 :=
    if res_id ≠ "" then dictInsert acc.id_to_name res_id name
    else acc.id_to_name
  pure ⟨acc.resources ++ [r], id_to_name1, bicep1⟩

/-- One step of the connection loop of `parse_rad_graph_output` (lines
324-385): skip `dependsOn` edges, resolve both ids, and append the
resolved pair when both names are non-empty, differ, and the pair is not
already present. -/
def rad_build_conn (id_to_name : List (String × String))
    (acc : List ConnRec) (conn : JVal) : Except String (List ConnRec) := do
  let sJ ← jGetDE conn "sourceId" (.str "")
  let source_id := jToKey sJ
  let tJ ← jGetDE conn "targetId" (.str "")
  let target_id := jToKey tJ
  let cJ ← jGetDE conn "type" (.str "")
  let conn_type := jToKey cJ
  if conn_type == "dependsOn" then pure acc
  else
    let source_name := rad_resolve_source source_id id_to_name
    let target_name := rad_resolve_target target_id id_to_name
    if source_name ≠ "" && target_name ≠ "" && source_name ≠ target_name then
      let e : ConnRec := ⟨source_name, target_name⟩
      if acc.contains e then pure acc else pure (acc ++ [e])
    else pure acc

/-- Result triple of `parse_rad_graph_output`. -/
structure RadResult where
  resources : List ResourceRec
  connections : List ConnRec
  bicep_filename : Option String
deriving DecidableEq

/-- Resource and connection loops of `parse_rad_graph_output` (lines
264-385), run with the initially inferred bicep filename; type errors
inside the loops propagate uncaught. -/
def rad_process_rest (data : JVal) (bicep0 : Option String) :
    Except String RadResult := do
  let resJ ← jGetDE data "resources" (.arr [])
  let items ← jIter resJ
  let acc ← items.foldlM rad_build_resource ⟨[], [], bicep0⟩
  let connJ ← jGetDE data "connections" (.arr [])
  let citems ← jIter connJ
  let conns ← citems.foldlM (rad_build_conn acc.id_to_name) []
  .ok ⟨acc.resources, conns, acc.bicep⟩

/-- Body of `parse_rad_graph_output` after a successful `json.loads` (lines
256-387): metadata inspection, then the resource and connection loops. -/
def rad_process (data : JVal) : Except String RadResult := do
  let metadata ← jGetDE data "metadata" (.obj [])
  let sfJ ← jGetDE metadata "sourceFiles" (.arr [])
  let sourceFiles ←
    match sfJ with
    | .arr xs => Except.ok xs
    | _ => Except.error "TypeError: sourceFiles not a list"
  rad_process_rest data
    (match sourceFiles with
     | [] => none
     | x :: _ => some (jToKey x))

/-- Embedding of `parse_rad_graph_output` (lines 214-397): preprocess, try
`json.loads` — a parse failure is caught and signalled as `none` (the
caller then falls back to direct Bicep parsing) — then process the parsed
document. -/
def parse_rad_graph_output (raw0 : String) :
    Except String (Option RadResult) :=
  let raw := rad_preprocess raw0
  match jsonLoads raw with
  | .error _ => .ok none
  | .ok data =>
    match rad_process data with
    | .error e => .error e
    | .ok r => .ok (some r)

/-- Parser selection of `main` in generate_architecture.py (lines 546-566):
use the structured output when it is supplied and parses, fall back to
direct Bicep parsing when it is absent or when the JSON reader failed. -/
def choose_graph_source (rad_output : Option String) (bicep_content : String) :
    Except String (List ResourceRec × List ConnRec) :=
  match rad_output with
  | none => .ok (parse_bicep bicep_content)
  | some raw => do
    match (← parse_rad_graph_output raw) with
    | some r => .ok (r.resources, r.connections)
    | none => .ok (parse_bicep bicep_content)

/-- The dict comprehension `{r["symbolic_name"]: r for r in resources}` of
`generate_mermaid` (line 441). -/
def buildResourceMap (resources : List ResourceRec) :
    List (String × ResourceRec) :=
  resources.foldl (fun m r => dictInsert m r.symbolic_name r) []

/-- Edge loop of `generate_mermaid` (lines 462-469): keep a connection only
when both endpoints are keys of the resource map and neither mapped
resource has category `"application"`. -/
def generate_mermaid_edges_loop (rmap : List (String × ResourceRec)) :
    List ConnRec → List (String × String)
  | [] => []
  | c :: rest =>
    match assocGet rmap c.cfrom, assocGet rmap c.cto with
    | some from_res, some to_res =>
      if from_res.category == "application" || to_res.category == "application"
      then generate_mermaid_edges_loop rmap rest
      else (c.cfrom, c.cto) :: generate_mermaid_edges_loop rmap rest
    | _, _ => generate_mermaid_edges_loop rmap rest

/-- Edge statements emitted by `generate_mermaid`. -/
def generate_mermaid_edges (resources : List ResourceRec)
    (connections : List ConnRec) : List (String × String) :=
  generate_mermaid_edges_loop (buildResourceMap resources) connections

/-- Link-style loop of `generate_mermaid` (lines 482-490): the same filter
as the edge loop, emitting the running `edge_count` index. -/
def generate_mermaid_linkstyle_loop (rmap : List (String × ResourceRec))
    (edge_count : Nat) : List ConnRec → List Nat
  | [] => []
  | c :: rest =>
    match assocGet rmap c.cfrom, assocGet rmap c.cto with
    | some from_res, some to_res =>
      if from_res.category == "application" || to_res.category == "application"
      then generate_mermaid_linkstyle_loop rmap edge_count rest
      else edge_count ::
        generate_mermaid_linkstyle_loop rmap (edge_count + 1) rest
    | _, _ => generate_mermaid_linkstyle_loop rmap edge_count rest

/-- Indices of the `linkStyle` statements emitted by `generate_mermaid`. -/
def generate_mermaid_linkstyles (resources : List ResourceRec)
    (connections : List ConnRec) : List Nat :=
  generate_mermaid_linkstyle_loop (buildResourceMap resources) 0 connections

/-- Specification-side form of the shared filter of the two loops above
(the edge-endpoint condition stated by the specification). -/
def mermaid_edge_keep (rmap : List (String × ResourceRec)) (c : ConnRec) :
    Bool :=
  match assocGet rmap c.cfrom, assocGet rmap c.cto with
  | some from_res, some to_res =>
    !(from_res.category == "application" || to_res.category == "application")
  | _, _ => false

/-- Instrumented form of the link-style loop recording, for each emitted
index, the connection being processed when it was emitted; used to state
the index-to-connection alignment of the specification. -/
def generate_mermaid_linkstyle_trace (rmap : List (String × ResourceRec))
    (edge_count : Nat) : List ConnRec → List (Nat × ConnRec)
  | [] => []
  | c :: rest =>
    match assocGet rmap c.cfrom, assocGet rmap c.cto with
    | some from_res, some to_res =>
      if from_res.category == "application" || to_res.category == "application"
      then generate_mermaid_linkstyle_trace rmap edge_count rest
      else (edge_count, c) ::
        generate_mermaid_linkstyle_trace rmap (edge_count + 1) rest
    | _, _ => generate_mermaid_linkstyle_trace rmap edge_count rest

/-! ## Embedding of `update_readme` -/

/-- Index of the last newline in a character list, if any. -/
def lastNlIdx : List Char → Option Nat
  | [] => none
  | c :: t =>
    match lastNlIdx t with
    | some k => some (k + 1)
    | none => if c = '\n' then some 0 else none

/-- Attempt of the section pattern `(## Architecture\s*\n).*?(\n## |\Z)` at
the head of the input (group 1 greedy through its final newline, group 3
the non-greedy body up to the first `"\n## "` or the end).  Returns the
lengths of group 1, the body, and group 2. -/
def matchArchAt (cs : List Char) : Option (Nat × Nat × Nat) :=
  if "## Architecture".toList.isPrefixOf cs then
    let rest := cs.drop 15
    let w := rest.takeWhile isPySpace
    match lastNlIdx w with
    | some k =>
      let g1len := 15 + k + 1
      let after := cs.drop g1len
      match findSubIdx "\n## ".toList after with
      | some p => some (g1len, p, 4)
      | none => some (g1len, after.length, 0)
    | none => none
  else none

/-- Leftmost match of the section pattern (`re.search`), returning the
start index and the three lengths. -/
def findArch : List Char → Option (Nat × Nat × Nat × Nat)
  | [] => none
  | c :: t =>
    match matchArchAt (c :: t) with
    | some (g1, b, g2) => some (0, g1, b, g2)
    | none =>
      (findArch t).map (fun r => (r.1 + 1, r.2.1, r.2.2.1, r.2.2.2))

/-- Left-to-right non-overlapping substitution of the section pattern
(`pattern.sub`), each match replaced by group 1, the new body, a newline,
and group 2. -/
def archSubAll (fuel : Nat) (cs : List Char) (repl : List Char) : List Char :=
  match fuel with
  | 0 => cs
  | f + 1 =>
    match findArch cs with
    | none => cs
    | some (start, g1len, bodyLen, g2len) =>
      let pre := cs.take start
      let g1 := (cs.drop start).take g1len
      let g2 := (cs.drop (start + g1len + bodyLen)).take g2len
      let rest := cs.drop (start + g1len + bodyLen + g2len)
      pre ++ g1 ++ repl ++ ['\n'] ++ g2 ++ archSubAll f rest repl

/-- New Architecture section body built by `update_readme` (lines 501-509). -/
def arch_new_body (mermaid_block : String) : String :=
  "\n> *Auto-generated from `app.bicep` — click any node to jump to its definition in the source.*\n\n```mermaid\n"
    ++ mermaid_block ++ "\n```\n"

/-- Embedding of `update_readme` (lines 495-525): replace every match of
the section pattern with the freshly generated body, or append a new
section when the pattern does not match anywhere. -/
def update_readme (content mermaid_block : String) : String :=
  let nb := arch_new_body mermaid_block
  let cs := content.toList
  match findArch cs with
  | some _ => ⟨archSubAll cs.length cs nb.toList⟩
  | none => content ++ "\n## Architecture\n" ++ nb ++ "\n"

/-! ## Theorems about the specification claims -/

/-- Unfolding lemma for the added set of `diff_graphs`. -/
theorem diff_graphs_added_def (base head : GraphD) :
    (diff_graphs base head).added =
      (head.resources.map Prod.fst).toFinset \
        (base.resources.map Prod.fst).toFinset := rfl

/-- Unfolding lemma for the removed set of `diff_graphs`. -/
theorem diff_graphs_removed_def (base head : GraphD) :
    (diff_graphs base head).removed =
      (base.resources.map Prod.fst).toFinset \
        (head.resources.map Prod.fst).toFinset := rfl

/-- Unfolding lemma for the modified set of `diff_graphs`. -/
theorem diff_graphs_modified_def (base head : GraphD) :
    (diff_graphs base head).modified =
      ((base.resources.map Prod.fst).toFinset ∩
        (head.resources.map Prod.fst).toFinset).filter (fun rid =>
          jdumps (dictGetJ base.resources rid) ≠
            jdumps (dictGetJ head.resources rid)) := rfl

/-- Unfolding lemma for the unchanged set of `diff_graphs`. -/
theorem diff_graphs_unchanged_def (base head : GraphD) :
    (diff_graphs base head).unchanged =
      ((base.resources.map Prod.fst).toFinset ∩
        (head.resources.map Prod.fst).toFinset) \
        (diff_graphs base head).modified := rfl

/-- Unfolding lemma for the added connections of `diff_graphs`. -/
theorem diff_graphs_added_conns_def (base head : GraphD) :
    (diff_graphs base head).added_conns =
      head.connections.toFinset \ base.connections.toFinset := rfl

/-- Unfolding lemma for the removed connections of `diff_graphs`. -/
theorem diff_graphs_removed_conns_def (base head : GraphD) :
    (diff_graphs base head).removed_conns =
      base.connections.toFinset \ head.connections.toFinset := rfl

/-- Claim C1: diffing a graph against itself yields empty added, removed,
modified and connection-change sets, and an unchanged set equal to the full
set of resource ids. -/
theorem spec_c1_diff_graphs_self (G : GraphD) :
    (diff_graphs G G).added = ∅ ∧ (diff_graphs G G).removed = ∅ ∧
    (diff_graphs G G).modified = ∅ ∧
    (diff_graphs G G).unchanged = graph_ids G ∧
    (diff_graphs G G).added_conns = ∅ ∧
    (diff_graphs G G).removed_conns = ∅ := by
  refine ⟨?_, ?_, ?_, ?_, ?_, ?_⟩
  · rw [diff_graphs_added_def, Finset.sdiff_self]
  · rw [diff_graphs_removed_def, Finset.sdiff_self]
  · rw [diff_graphs_modified_def]
    simp
  · rw [diff_graphs_unchanged_def, diff_graphs_modified_def]
    simp [graph_ids]
  · rw [diff_graphs_added_conns_def, Finset.sdiff_self]
  · rw [diff_graphs_removed_conns_def, Finset.sdiff_self]

/-- Claim C9: the four resource sets of `diff_graphs` are pairwise disjoint
and partition the union of the two id sets; added and removed are the
one-sided ids and modified with unchanged partition the common ids. -/
theorem spec_c9_diff_graphs_partition (base head : GraphD) :
    (Disjoint (diff_graphs base head).added (diff_graphs base head).removed ∧
     Disjoint (diff_graphs base head).added (diff_graphs base head).modified ∧
     Disjoint (diff_graphs base head).added (diff_graphs base head).unchanged ∧
     Disjoint (diff_graphs base head).removed (diff_graphs base head).modified ∧
     Disjoint (diff_graphs base head).removed (diff_graphs base head).unchanged ∧
     Disjoint (diff_graphs base head).modified (diff_graphs base head).unchanged) ∧
    (diff_graphs base head).added ∪ (diff_graphs base head).removed ∪
        (diff_graphs base head).modified ∪ (diff_graphs base head).unchanged =
      graph_ids base ∪ graph_ids head ∧
    (diff_graphs base head).added = graph_ids head \ graph_ids base ∧
    (diff_graphs base head).removed = graph_ids base \ graph_ids head ∧
    (diff_graphs base head).modified ∪ (diff_graphs base head).unchanged =
      graph_ids base ∩ graph_ids head := by
  refine ⟨⟨?_, ?_, ?_, ?_, ?_, ?_⟩, ?_, rfl, rfl, ?_⟩
  · rw [Finset.disjoint_left]
    intro x hx hy
    simp only [diff_graphs_added_def, diff_graphs_removed_def,
      diff_graphs_modified_def, diff_graphs_unchanged_def, Finset.mem_sdiff,
      Finset.mem_inter, Finset.mem_filter] at hx hy
    tauto
  · rw [Finset.disjoint_left]
    intro x hx hy
    simp only [diff_graphs_added_def, diff_graphs_removed_def,
      diff_graphs_modified_def, diff_graphs_unchanged_def, Finset.mem_sdiff,
      Finset.mem_inter, Finset.mem_filter] at hx hy
    tauto
  · rw [Finset.disjoint_left]
    intro x hx hy
    simp only [diff_graphs_added_def, diff_graphs_removed_def,
      diff_graphs_modified_def, diff_graphs_unchanged_def, Finset.mem_sdiff,
      Finset.mem_inter, Finset.mem_filter] at hx hy
    tauto
  · rw [Finset.disjoint_left]
    intro x hx hy
    simp only [diff_graphs_added_def, diff_graphs_removed_def,
      diff_graphs_modified_def, diff_graphs_unchanged_def, Finset.mem_sdiff,
      Finset.mem_inter, Finset.mem_filter] at hx hy
    tauto
  · rw [Finset.disjoint_left]
    intro x hx hy
    simp only [diff_graphs_added_def, diff_graphs_removed_def,
      diff_graphs_modified_def, diff_graphs_unchanged_def, Finset.mem_sdiff,
      Finset.mem_inter, Finset.mem_filter] at hx hy
    tauto
  · rw [Finset.disjoint_left]
    intro x hx hy
    simp only [diff_graphs_added_def, diff_graphs_removed_def,
      diff_graphs_modified_def, diff_graphs_unchanged_def, Finset.mem_sdiff,
      Finset.mem_inter, Finset.mem_filter] at hx hy
    tauto
  · ext x
    simp only [graph_ids, diff_graphs_added_def, diff_graphs_removed_def,
      diff_graphs_modified_def, diff_graphs_unchanged_def, Finset.mem_union,
      Finset.mem_sdiff, Finset.mem_inter, Finset.mem_filter]
    tauto
  · ext x
    simp only [graph_ids, diff_graphs_added_def, diff_graphs_removed_def,
      diff_graphs_modified_def, diff_graphs_unchanged_def, Finset.mem_union,
      Finset.mem_sdiff, Finset.mem_inter, Finset.mem_filter]
    tauto

/-- Claim C10: `parse_graph` of `None` or of the empty string is the empty
graph rather than an error, so a missing head input makes every base
resource removed and a missing base input makes every head resource added. -/
theorem spec_c10_absent_input (g : GraphD) :
    parse_graph none = .ok ⟨[], []⟩ ∧
    parse_graph (some "") = .ok ⟨[], []⟩ ∧
    (diff_graphs g ⟨[], []⟩).removed = graph_ids g ∧
    (diff_graphs g ⟨[], []⟩).added = ∅ ∧
    (diff_graphs g ⟨[], []⟩).modified = ∅ ∧
    (diff_graphs ⟨[], []⟩ g).added = graph_ids g ∧
    (diff_graphs ⟨[], []⟩ g).removed = ∅ := by
  refine ⟨rfl, rfl, ?_, ?_, ?_, ?_, ?_⟩
  · rw [diff_graphs_removed_def]
    simp [graph_ids]
  · rw [diff_graphs_added_def]
    simp
  · rw [diff_graphs_modified_def]
    simp
  · rw [diff_graphs_added_def]
    simp [graph_ids]
  · rw [diff_graphs_removed_def]
    simp

/-- The edge loop of `generate_mermaid` is the shared filter followed by
projection to the endpoint pair. -/
theorem generate_mermaid_edges_loop_eq (rmap : List (String × ResourceRec))
    (l : List ConnRec) :
    generate_mermaid_edges_loop rmap l =
      (l.filter (mermaid_edge_keep rmap)).map (fun c => (c.cfrom, c.cto)) := by
  induction l with
  | nil => rfl
  | cons c rest ih =>
    cases hf : assocGet rmap c.cfrom with
    | none =>
      have hk : mermaid_edge_keep rmap c = false := by
        simp [mermaid_edge_keep, hf]
      simp [generate_mermaid_edges_loop, List.filter_cons, hf, hk, ih]
    | some fr =>
      cases ht : assocGet rmap c.cto with
      | none =>
        have hk : mermaid_edge_keep rmap c = false := by
          simp [mermaid_edge_keep, hf, ht]
        simp [generate_mermaid_edges_loop, List.filter_cons, hf, ht, hk, ih]
      | some tr =>
        by_cases happ :
            (fr.category == "application" || tr.category == "application") = true
        · have hk : mermaid_edge_keep rmap c = false := by
            simp only [mermaid_edge_keep, hf, ht, happ, Bool.not_true]
          simp [generate_mermaid_edges_loop, List.filter_cons, hf, ht, happ, hk, ih]
        · rw [Bool.not_eq_true] at happ
          have hk : mermaid_edge_keep rmap c = true := by
            simp only [mermaid_edge_keep, hf, ht, happ, Bool.not_false]
          simp [generate_mermaid_edges_loop, List.filter_cons, hf, ht, happ, hk, ih]

/-- The link-style loop of `generate_mermaid` emits the consecutive indices
starting at its counter, one for each connection kept by the shared filter. -/
theorem generate_mermaid_linkstyle_loop_eq (rmap : List (String × ResourceRec))
    (k : Nat) (l : List ConnRec) :
    generate_mermaid_linkstyle_loop rmap k l =
      List.range' k (l.filter (mermaid_edge_keep rmap)).length := by
  induction l generalizing k with
  | nil => rfl
  | cons c rest ih =>
    cases hf : assocGet rmap c.cfrom with
    | none =>
      have hk : mermaid_edge_keep rmap c = false := by
        simp [mermaid_edge_keep, hf]
      simp [generate_mermaid_linkstyle_loop, List.filter_cons, hf, hk, ih]
    | some fr =>
      cases ht : assocGet rmap c.cto with
      | none =>
        have hk : mermaid_edge_keep rmap c = false := by
          simp [mermaid_edge_keep, hf, ht]
        simp [generate_mermaid_linkstyle_loop, List.filter_cons, hf, ht, hk, ih]
      | some tr =>
        by_cases happ :
            (fr.category == "application" || tr.category == "application") = true
        · have hk : mermaid_edge_keep rmap c = false := by
            simp only [mermaid_edge_keep, hf, ht, happ, Bool.not_true]
          simp [generate_mermaid_linkstyle_loop, List.filter_cons, hf, ht, happ,
            hk, ih]
        · rw [Bool.not_eq_true] at happ
          have hk : mermaid_edge_keep rmap c = true := by
            simp only [mermaid_edge_keep, hf, ht, happ, Bool.not_false]
          simp [generate_mermaid_linkstyle_loop, List.filter_cons, hf, ht, happ,
            hk, ih, List.range'_succ]

/-- The instrumented link-style loop pairs each emitted index with the kept
connection being processed. -/
theorem generate_mermaid_linkstyle_trace_eq (rmap : List (String × ResourceRec))
    (k : Nat) (l : List ConnRec) :
    generate_mermaid_linkstyle_trace rmap k l =
      (List.range' k (l.filter (mermaid_edge_keep rmap)).length).zip
        (l.filter (mermaid_edge_keep rmap)) := by
  induction l generalizing k with
  | nil => rfl
  | cons c rest ih =>
    cases hf : assocGet rmap c.cfrom with
    | none =>
      have hk : mermaid_edge_keep rmap c = false := by
        simp [mermaid_edge_keep, hf]
      simp [generate_mermaid_linkstyle_trace, List.filter_cons, hf, hk, ih]
    | some fr =>
      cases ht : assocGet rmap c.cto with
      | none =>
        have hk : mermaid_edge_keep rmap c = false := by
          simp [mermaid_edge_keep, hf, ht]
        simp [generate_mermaid_linkstyle_trace, List.filter_cons, hf, ht, hk, ih]
      | some tr =>
        by_cases happ :
            (fr.category == "application" || tr.category == "application") = true
        · have hk : mermaid_edge_keep rmap c = false := by
            simp only [mermaid_edge_keep, hf, ht, happ, Bool.not_true]
          simp [generate_mermaid_linkstyle_trace, List.filter_cons, hf, ht,
            happ, hk, ih]
        · rw [Bool.not_eq_true] at happ
          have hk : mermaid_edge_keep rmap c = true := by
            simp only [mermaid_edge_keep, hf, ht, happ, Bool.not_false]
          simp [generate_mermaid_linkstyle_trace, List.filter_cons, hf, ht,
            happ, hk, ih, List.range'_succ]

/-- Claim C6: the `linkStyle` statements of `generate_mermaid` are exactly
one per emitted edge statement, the statement in position k carries index
k, and both loops run the identical filter over the connection list, so the
k-th index is produced from the same connection as the k-th edge. -/
theorem spec_c6_linkstyle_alignment (resources : List ResourceRec)
    (connections : List ConnRec) :
    generate_mermaid_edges resources connections =
      (connections.filter (mermaid_edge_keep (buildResourceMap resources))).map
        (fun c => (c.cfrom, c.cto)) ∧
    generate_mermaid_linkstyles resources connections =
      List.range (generate_mermaid_edges resources connections).length ∧
    generate_mermaid_linkstyle_trace (buildResourceMap resources) 0 connections =
      (List.range (generate_mermaid_edges resources connections).length).zip
        (connections.filter (mermaid_edge_keep (buildResourceMap resources))) := by
  refine ⟨generate_mermaid_edges_loop_eq _ _, ?_, ?_⟩
  · rw [generate_mermaid_linkstyles, generate_mermaid_linkstyle_loop_eq,
      generate_mermaid_edges, generate_mermaid_edges_loop_eq,
      List.length_map, List.range_eq_range']
  · rw [generate_mermaid_linkstyle_trace_eq,
      generate_mermaid_edges, generate_mermaid_edges_loop_eq,
      List.length_map, List.range_eq_range']

/-! ## Concrete inputs used by witnesses and counterexamples -/

/-- Single-quote as a string. -/
def sqs : String := ⟨[sqc]⟩

/-- Bicep manifest with one container whose connection target is a URL with
an unknown hostname. -/
def ex3bicep : String :=
  "resource frontend " ++ sqs ++ "Applications.Core/containers" ++ sqs
    ++ " = \x7b\n  name: " ++ sqs ++ "frontend" ++ sqs
    ++ "\n  connections: \x7b\n    c1: \x7b source: " ++ sqs
    ++ "http://unknownhost:9999" ++ sqs ++ " \x7d\n  \x7d\n\x7d\n"

/-- Bicep manifest with one container that declares two URL connections to
its own resource name. -/
def ex4bicep : String :=
  "resource a " ++ sqs ++ "Applications.Core/containers" ++ sqs
    ++ " = \x7b\n  name: " ++ sqs ++ "a" ++ sqs
    ++ "\n  connections: \x7b\n    c1: \x7b source: " ++ sqs
    ++ "http://a:3000" ++ sqs ++ " \x7d\n    c2: \x7b source: " ++ sqs
    ++ "http://a:3001" ++ sqs ++ " \x7d\n  \x7d\n\x7d\n"

/-- One-resource dictionary for the diff-tool renderer. -/
def exMermaidRes : List (String × JVal) :=
  [("a", .obj [("name", .str "a"),
               ("type", .str "Applications.Core/containers")])]

/-- Resource list with an application resource and two containers. -/
def exGenRes : List ResourceRec :=
  [{ symbolic_name := "app", display_name := "app",
     resource_type := "Applications.Core/applications", image := none,
     port := none, category := "application", line_number := "1",
     source_file := none },
   { symbolic_name := "f", display_name := "f",
     resource_type := "Applications.Core/containers", image := none,
     port := none, category := "container", line_number := "2",
     source_file := none },
   { symbolic_name := "g", display_name := "g",
     resource_type := "Applications.Core/containers", image := none,
     port := none, category := "container", line_number := "3",
     source_file := none }]

/-- Structured graph document with one container and one URL connection. -/
def raw4 : String :=
  "\x7b\"resources\": [\x7b\"id\": \"/app/a\", \"name\": \"a\", \"type\": \"Applications.Core/containers\"\x7d], \"connections\": [\x7b\"sourceId\": \"/app/a\", \"targetId\": \"http://b:80\", \"type\": \"connection\"\x7d]\x7d"

/-- Resource record produced when parsing `raw4`. -/
def r4rec : ResourceRec :=
  { symbolic_name := "a", display_name := "a",
    resource_type := "Applications.Core/containers", image := none,
    port := none, category := "container", line_number := "0",
    source_file := some "" }

/-- Value of `parse_rad_graph_output raw4`. -/
def r4val : RadResult :=
  ⟨[r4rec], [⟨"a", "b"⟩], none⟩

/-- Every edge emitted by the edge loop of `make_mermaid_graph` stems from
a supplied connection that passed the application-category tests on its
raw ids, and carries the resolved (fallback-capable) endpoint names. -/
theorem make_mermaid_graph_edges_sound (resources : List (String × JVal)) :
    ∀ (connections : List (String × String)) (e : String × String),
      e ∈ make_mermaid_graph_edges resources connections →
      ∃ s t, (s, t) ∈ connections ∧
        e = (safe_node_id (resolve_name s resources),
             safe_node_id (resolve_name t resources)) ∧
        categorize (jStrAttr ((assocGet resources s).getD (.obj [])) "type")
          ≠ "application" ∧
        categorize (jStrAttr ((assocGet resources t).getD (.obj [])) "type")
          ≠ "application" ∧
        resolve_name s resources ≠ resolve_name t resources := by
  intro connections
  induction connections with
  | nil => intro e he; simp [make_mermaid_graph_edges] at he
  | cons p rest ih =>
    obtain ⟨s0, t0⟩ := p
    intro e he
    simp only [make_mermaid_graph_edges] at he
    split_ifs at he with h1 h2 h3
    · obtain ⟨s, t, hm, rest'⟩ := ih e he
      exact ⟨s, t, List.mem_cons_of_mem _ hm, rest'⟩
    · obtain ⟨s, t, hm, rest'⟩ := ih e he
      exact ⟨s, t, List.mem_cons_of_mem _ hm, rest'⟩
    · rcases List.mem_cons.mp he with hhd | htl
      · exact ⟨s0, t0, List.mem_cons_self _ _, hhd, h1, h2, h3⟩
      · obtain ⟨s, t, hm, rest'⟩ := ih e htl
        exact ⟨s, t, List.mem_cons_of_mem _ hm, rest'⟩
    · obtain ⟨s, t, hm, rest'⟩ := ih e he
      exact ⟨s, t, List.mem_cons_of_mem _ hm, rest'⟩

/-- Claim C2 (amended): `generate_mermaid` emits only edges whose two
endpoints are keys of the resource map and map to non-application
resources; `make_mermaid_graph` only checks the application category of
the resources found under the raw connection ids, and its emitted endpoint
names are resolved with literal fallback, so they need not belong to the
supplied resource set. -/
theorem spec_c2_edge_endpoint_invariant_amended :
    (∀ (resources : List ResourceRec) (connections : List ConnRec)
        (a b : String), (a, b) ∈ generate_mermaid_edges resources connections →
        ∃ fr tr, assocGet (buildResourceMap resources) a = some fr ∧
          assocGet (buildResourceMap resources) b = some tr ∧
          fr.category ≠ "application" ∧ tr.category ≠ "application") ∧
    (∀ (resources : List (String × JVal)) (connections : List (String × String))
        (e : String × String),
        e ∈ make_mermaid_graph_edges resources connections →
        ∃ s t, (s, t) ∈ connections ∧
          e = (safe_node_id (resolve_name s resources),
               safe_node_id (resolve_name t resources)) ∧
          categorize (jStrAttr ((assocGet resources s).getD (.obj [])) "type")
            ≠ "application" ∧
          categorize (jStrAttr ((assocGet resources t).getD (.obj [])) "type")
            ≠ "application") := by
  constructor
  · intro resources connections a b hmem
    rw [generate_mermaid_edges, generate_mermaid_edges_loop_eq] at hmem
    obtain ⟨c, hc, hpair⟩ := List.mem_map.mp hmem
    obtain ⟨_, hkeep⟩ := List.mem_filter.mp hc
    obtain ⟨ha, hb⟩ := Prod.mk.injEq _ _ _ _ ▸ hpair
    subst ha
    subst hb
    unfold mermaid_edge_keep at hkeep
    cases hf : assocGet (buildResourceMap resources) c.cfrom with
    | none => rw [hf] at hkeep; simp at hkeep
    | some fr =>
      cases ht : assocGet (buildResourceMap resources) c.cto with
      | none => rw [hf, ht] at hkeep; simp at hkeep
      | some tr =>
        rw [hf, ht] at hkeep
        simp only [Bool.not_eq_true', Bool.or_eq_false_iff, beq_eq_false_iff_ne,
          ne_eq] at hkeep
        exact ⟨fr, tr, rfl, rfl, hkeep.1, hkeep.2⟩
  · intro resources connections e he
    obtain ⟨s, t, hm, hpair, hc1, hc2, _⟩ :=
      make_mermaid_graph_edges_sound resources connections e he
    exact ⟨s, t, hm, hpair, hc1, hc2⟩

/-- Claim C2 counterexample: with one container resource and a connection
whose target is an unknown-host URL, `make_mermaid_graph` emits an edge to
`unknownhost`, which is neither a key nor a resource name of the supplied
resource set. -/
theorem spec_c2_counterexample :
    make_mermaid_graph_edges exMermaidRes [("a", "http://unknownhost:9999")] =
      [("a", "unknownhost")] ∧
    (assocGet exMermaidRes "unknownhost").isNone = true ∧
    (exMermaidRes.map (fun p => jStrAttr p.2 "name")).all
      (fun n => n ≠ "unknownhost") = true := by
  decide

/-- Claim C2 witness: the amended invariant instantiated at concrete
inputs for both renderers. -/
theorem spec_c2_amended_witness :
    ((("f", "g") ∈ generate_mermaid_edges exGenRes [⟨"f", "g"⟩]) ∧
     (∃ fr tr, assocGet (buildResourceMap exGenRes) "f" = some fr ∧
        assocGet (buildResourceMap exGenRes) "g" = some tr ∧
        fr.category ≠ "application" ∧ tr.category ≠ "application")) ∧
    ((("a", "unknownhost") ∈
        make_mermaid_graph_edges exMermaidRes [("a", "http://unknownhost:9999")]) ∧
     (∃ s t, (s, t) ∈ [("a", "http://unknownhost:9999")] ∧
        ("a", "unknownhost") =
          (safe_node_id (resolve_name s exMermaidRes),
           safe_node_id (resolve_name t exMermaidRes)) ∧
        categorize (jStrAttr ((assocGet exMermaidRes s).getD (.obj [])) "type")
          ≠ "application" ∧
        categorize (jStrAttr ((assocGet exMermaidRes t).getD (.obj [])) "type")
          ≠ "application")) :=
  ⟨⟨by decide,
    spec_c2_edge_endpoint_invariant_amended.1 exGenRes [⟨"f", "g"⟩] "f" "g"
      (by decide)⟩,
   ⟨by decide,
    spec_c2_edge_endpoint_invariant_amended.2 exMermaidRes
      [("a", "http://unknownhost:9999")] ("a", "unknownhost") (by decide)⟩⟩

/-- Everything produced by the Bicep connection-resolution step is either a
hostname entry resolved through an exact display-name match or a direct
entry passed through; unmatched hostnames never survive. -/
theorem resolve_bicep_conns_sound (m : List (String × String)) :
    ∀ (conns : List BicepConn) (c : ConnRec),
      c ∈ resolve_bicep_conns m conns →
      (∃ h, BicepConn.host c.cfrom h ∈ conns ∧ assocGet m h = some c.cto) ∨
      BicepConn.direct c.cfrom c.cto ∈ conns := by
  intro conns
  induction conns with
  | nil => intro c hc; simp [resolve_bicep_conns] at hc
  | cons b rest ih =>
    intro c hc
    cases b with
    | host f hh =>
      rw [resolve_bicep_conns] at hc
      cases hm : assocGet m hh with
      | none =>
        rw [hm] at hc
        rcases ih c hc with ⟨h0, hmem, hres⟩ | hmem
        · exact Or.inl ⟨h0, List.mem_cons_of_mem _ hmem, hres⟩
        · exact Or.inr (List.mem_cons_of_mem _ hmem)
      | some t =>
        rw [hm] at hc
        rcases List.mem_cons.mp hc with hhd | htl
        · subst hhd
          exact Or.inl ⟨hh, List.mem_cons_self _ _, hm⟩
        · rcases ih c htl with ⟨h0, hmem, hres⟩ | hmem
          · exact Or.inl ⟨h0, List.mem_cons_of_mem _ hmem, hres⟩
          · exact Or.inr (List.mem_cons_of_mem _ hmem)
    | direct f t =>
      rw [resolve_bicep_conns] at hc
      rcases List.mem_cons.mp hc with hhd | htl
      · subst hhd
        exact Or.inr (List.mem_cons_self _ _)
      · rcases ih c htl with ⟨h0, hmem, hres⟩ | hmem
        · exact Or.inl ⟨h0, List.mem_cons_of_mem _ hmem, hres⟩
        · exact Or.inr (List.mem_cons_of_mem _ hmem)

/-- Claim C3 (amended): an unresolvable URL target falls back to the
literal hostname in the structured paths — the target resolution of
`parse_rad_graph_output` and `resolve_name` of graph_diff.py — while the
textual Bicep path drops a connection whose hostname matches no resource
display name instead of keeping the literal hostname. -/
theorem spec_c3_url_literal_fallback_amended :
    (∀ (tid h : String) (m : List (String × String)),
        urlHost tid = some h →
        h ≠ "" →
        (assocGet m tid).getD "" = "" →
        armRefSym tid = none →
        (∀ p ∈ m, containsStr p.2 h = false ∧ containsStr h p.2 = false) →
        rad_resolve_target tid m = h) ∧
    (∀ (rid h : String) (resources : List (String × JVal)),
        urlHost rid = some h →
        (assocGet resources rid).isNone = true →
        armRefSym rid = none →
        resolve_name rid resources = h) ∧
    (∀ (m : List (String × String)) (conns : List BicepConn) (c : ConnRec),
        c ∈ resolve_bicep_conns m conns →
        (∃ h, BicepConn.host c.cfrom h ∈ conns ∧ assocGet m h = some c.cto) ∨
        BicepConn.direct c.cfrom c.cto ∈ conns) := by
  refine ⟨?_, ?_, resolve_bicep_conns_sound⟩
  · intro tid h m hu hne h0 harm hno
    have hfind : (m.map Prod.snd).find?
        (fun rn => containsStr rn h || containsStr h rn) = none := by
      refine List.find?_eq_none.mpr ?_
      intro rn hrn
      obtain ⟨p, hp, hrn'⟩ := List.mem_map.mp hrn
      subst hrn'
      obtain ⟨hc1, hc2⟩ := hno p hp
      simp [hc1, hc2]
    rw [rad_resolve_target, h0]
    simp only [ne_eq, not_true_eq_false, if_false, harm, hu, hfind]
    simp [hne]
  · intro rid h resources hu hnone harm
    rw [Option.isNone_iff_eq_none] at hnone
    rw [resolve_name, hnone, harm, hu]

/-- Claim C3 counterexample: in the textual Bicep path a connection whose
URL hostname (`unknownhost`) matches no resource display name is dropped,
so the parsed connection list is empty rather than containing the literal
hostname as a target. -/
theorem spec_c3_counterexample :
    (parse_bicep ex3bicep).1.map (fun r => r.display_name) = ["frontend"] ∧
    (parse_bicep ex3bicep).2 = [] := by
  decide

/-- Claim C3 witness: the amended fallback statements instantiated at the
unknown-host URL of the specification. -/
theorem spec_c3_amended_witness :
    ((urlHost "http://unknownhost:9999" = some "unknownhost" ∧
      ("unknownhost" : String) ≠ "" ∧
      (assocGet [("id1", "frontend")] "http://unknownhost:9999").getD "" = "" ∧
      armRefSym "http://unknownhost:9999" = none ∧
      (∀ p ∈ [("id1", "frontend")],
        containsStr p.2 "unknownhost" = false ∧
        containsStr "unknownhost" p.2 = false)) ∧
     rad_resolve_target "http://unknownhost:9999" [("id1", "frontend")] =
       "unknownhost") ∧
    ((urlHost "http://unknownhost:9999" = some "unknownhost" ∧
      (assocGet exMermaidRes "http://unknownhost:9999").isNone = true ∧
      armRefSym "http://unknownhost:9999" = none) ∧
     resolve_name "http://unknownhost:9999" exMermaidRes = "unknownhost") ∧
    ((ConnRec.mk "a" "bsym" ∈
        resolve_bicep_conns [("b", "bsym")] [BicepConn.host "a" "b"]) ∧
     ((∃ h, BicepConn.host "a" h ∈ [BicepConn.host "a" "b"] ∧
        assocGet [("b", "bsym")] h = some "bsym") ∨
      BicepConn.direct "a" "bsym" ∈ [BicepConn.host "a" "b"])) :=
  ⟨⟨⟨by decide, by decide, by decide, by decide, by decide⟩,
    spec_c3_url_literal_fallback_amended.1 "http://unknownhost:9999"
      "unknownhost" [("id1", "frontend")] (by decide) (by decide) (by decide)
      (by decide) (by decide)⟩,
   ⟨⟨by decide, by decide, by decide⟩,
    spec_c3_url_literal_fallback_amended.2.1 "http://unknownhost:9999"
      "unknownhost" exMermaidRes (by decide) (by decide) (by decide)⟩,
   ⟨by decide,
    spec_c3_url_literal_fallback_amended.2.2 [("b", "bsym")]
      [BicepConn.host "a" "b"] (ConnRec.mk "a" "bsym") (by decide)⟩⟩

/-- Claim C5 (amended): when the structured input does not parse as JSON,
`parse_rad_graph_output` returns the fallback signal and the main flow of
generate_architecture.py parses the Bicep file instead; `parse_graph` of
graph_diff.py has no such handler (see the counterexample). -/
theorem spec_c5_malformed_fallback_amended (raw bicep_content : String) :
    exceptIsOk (jsonLoads (rad_preprocess raw)) = false →
    parse_rad_graph_output raw = .ok none ∧
    choose_graph_source (some raw) bicep_content = .ok (parse_bicep bicep_content) := by
  intro hfail
  cases hl : jsonLoads (rad_preprocess raw) with
  | ok v => rw [hl] at hfail; simp [exceptIsOk] at hfail
  | error e =>
    constructor
    · simp [parse_rad_graph_output, hl]
    · simp [choose_graph_source, parse_rad_graph_output, hl, bind, Except.bind]

/-- Claim C5 counterexample: `parse_graph` raises on malformed non-empty
input, and the diff tool's main flow therefore fails with an unhandled
error instead of recovering (the "no changes" report only covers absent
inputs). -/
theorem spec_c5_counterexample :
    exceptIsOk (parse_graph (some "not json")) = false ∧
    exceptIsOk (run_diff none (some "not json")) = false ∧
    run_diff none none = .ok DiffOutcome.noChanges := by
  refine ⟨by decide, by decide, rfl⟩

/-- Claim C5 witness: the generate_architecture fallback instantiated at a
malformed structured input. -/
theorem spec_c5_amended_witness :
    exceptIsOk (jsonLoads (rad_preprocess "not json")) = false ∧
    (parse_rad_graph_output "not json" = .ok none ∧
     choose_graph_source (some "not json") "resource x" =
       .ok (parse_bicep "resource x")) :=
  ⟨by decide,
   spec_c5_malformed_fallback_amended "not json" "resource x" (by decide)⟩

/-- Substring containment at a cons splits into a prefix test and the tail. -/
theorem containsSubL_cons (c : Char) (t pat : List Char) :
    containsSubL (c :: t) pat =
      (pat.isPrefixOf (c :: t) || containsSubL t pat) := by
  unfold containsSubL
  rw [findSubIdx]
  by_cases hp : pat.isPrefixOf (c :: t) = true
  · simp [hp]
  · rw [Bool.not_eq_true] at hp
    simp [hp, Option.isSome_map']

/-- A match of the section pattern starts with the heading literal. -/
theorem matchArchAt_some_isPrefix (cs : List Char)
    (x : Nat × Nat × Nat) (h : matchArchAt cs = some x) :
    "## Architecture".toList.isPrefixOf cs = true := by
  rw [matchArchAt] at h
  by_cases hp : "## Architecture".toList.isPrefixOf cs = true
  · exact hp
  · rw [Bool.not_eq_true] at hp
    rw [hp] at h
    simp at h

/-- Without the heading substring the section pattern cannot match. -/
theorem findArch_none_of_not_contains (cs : List Char)
    (h : containsSubL cs "## Architecture".toList = false) :
    findArch cs = none := by
  induction cs with
  | nil => rfl
  | cons c t ih =>
    rw [containsSubL_cons] at h
    rw [Bool.or_eq_false_iff] at h
    rw [findArch]
    cases hm : matchArchAt (c :: t) with
    | some x =>
      have := matchArchAt_some_isPrefix (c :: t) x hm
      rw [this] at h
      simp at h
    | none =>
      rw [ih h.2]
      rfl

/-- Substitution is the identity when the pattern does not match. -/
theorem archSubAll_of_none (f : Nat) (cs repl : List Char)
    (h : findArch cs = none) : archSubAll f cs repl = cs := by
  cases f with
  | zero => rfl
  | succ k =>
    rw [archSubAll, h]

/-- Claim C8 (amended): a document without the heading substring gets a new
Architecture section appended at the end; when the section pattern matches
— the heading followed by optional whitespace ending in a newline — the
body is replaced through the next top-level heading (second part) or
through the end of the document (third part).  A document that merely
contains the heading without a following newline is appended to, not
replaced (see the counterexample). -/
theorem spec_c8_update_readme_amended :
    (∀ (content m : String),
        containsStr content "## Architecture" = false →
        update_readme content m =
          content ++ "\n## Architecture\n" ++ arch_new_body m ++ "\n") ∧
    (∀ (p w b post m : String),
        findArch (p ++ "## Architecture" ++ w ++ "\n" ++ b ++ "\n## "
            ++ post).toList =
          some (p.toList.length, 15 + w.toList.length + 1, b.toList.length, 4) →
        findArch post.toList = none →
        update_readme (p ++ "## Architecture" ++ w ++ "\n" ++ b ++ "\n## "
            ++ post) m =
          p ++ "## Architecture" ++ w ++ "\n" ++ arch_new_body m ++ "\n"
            ++ "\n## " ++ post) ∧
    (∀ (p w b m : String),
        findArch (p ++ "## Architecture" ++ w ++ "\n" ++ b).toList =
          some (p.toList.length, 15 + w.toList.length + 1, b.toList.length, 0) →
        update_readme (p ++ "## Architecture" ++ w ++ "\n" ++ b) m =
          p ++ "## Architecture" ++ w ++ "\n" ++ arch_new_body m ++ "\n") := by
  have h15 : ("## Architecture".toList).length = 15 := by decide
  have h4 : ("\n## ".toList).length = 4 := by decide
  have hnl : ("\n" : String).data = ['\n'] := rfl
  refine ⟨?_, ?_, ?_⟩
  · intro content m h
    have hf : findArch content.toList = none :=
      findArch_none_of_not_contains content.toList h
    simp only [update_readme, hf]
  · intro p w b post m hfind hpost
    have hg1len : ("## Architecture".toList ++ w.toList ++ ['\n']).length =
        15 + w.toList.length + 1 := by
      simp [h15]
      omega
    have hdata : (p ++ "## Architecture" ++ w ++ "\n" ++ b ++ "\n## "
        ++ post).toList =
        p.toList ++ (("## Architecture".toList ++ w.toList ++ ['\n']) ++
          (b.toList ++ ("\n## ".toList ++ post.toList))) := by
      simp [String.toList, String.data_append, List.append_assoc, hnl]
    have hdata2 : (p ++ "## Architecture" ++ w ++ "\n" ++ b ++ "\n## "
        ++ post).toList =
        (p.toList ++ ("## Architecture".toList ++ w.toList ++ ['\n']) ++
          b.toList) ++ ("\n## ".toList ++ post.toList) := by
      simp [String.toList, String.data_append, List.append_assoc, hnl]
    have hdata3 : (p ++ "## Architecture" ++ w ++ "\n" ++ b ++ "\n## "
        ++ post).toList =
        (p.toList ++ ("## Architecture".toList ++ w.toList ++ ['\n']) ++
          b.toList ++ "\n## ".toList) ++ post.toList := by
      simp [String.toList, String.data_append, List.append_assoc, hnl]
    have hpos : (p ++ "## Architecture" ++ w ++ "\n" ++ b ++ "\n## "
        ++ post).toList.length ≠ 0 := by
      rw [hdata]
      simp [List.length_append, h15]
    obtain ⟨n, hn⟩ := Nat.exists_eq_succ_of_ne_zero hpos
    have e1 : (p ++ "## Architecture" ++ w ++ "\n" ++ b ++ "\n## "
        ++ post).toList.take p.toList.length = p.toList := by
      rw [hdata]
      exact List.take_left' rfl
    have e2 : (((p ++ "## Architecture" ++ w ++ "\n" ++ b ++ "\n## "
        ++ post).toList.drop p.toList.length).take
          (15 + w.toList.length + 1)) =
        "## Architecture".toList ++ w.toList ++ ['\n'] := by
      rw [hdata, List.drop_left' rfl]
      exact List.take_left' hg1len
    have hlen2 : (p.toList ++ ("## Architecture".toList ++ w.toList ++ ['\n'])
        ++ b.toList).length =
        p.toList.length + (15 + w.toList.length + 1) + b.toList.length := by
      simp [List.length_append, h15]
      omega
    have e3 : (((p ++ "## Architecture" ++ w ++ "\n" ++ b ++ "\n## "
        ++ post).toList.drop
          (p.toList.length + (15 + w.toList.length + 1) + b.toList.length)).take
            4) = "\n## ".toList := by
      rw [hdata2, List.drop_left' hlen2]
      exact List.take_left' h4
    have hlen3 : (p.toList ++ ("## Architecture".toList ++ w.toList ++ ['\n'])
        ++ b.toList ++ "\n## ".toList).length =
        p.toList.length + (15 + w.toList.length + 1) + b.toList.length + 4 := by
      simp [List.length_append, h15, h4]
      omega
    have e4 : (p ++ "## Architecture" ++ w ++ "\n" ++ b ++ "\n## "
        ++ post).toList.drop
          (p.toList.length + (15 + w.toList.length + 1) + b.toList.length + 4) =
        post.toList := by
      rw [hdata3, List.drop_left' hlen3]
    simp only [update_readme, hfind, hn]
    rw [archSubAll, hfind]
    simp only [e1, e2, e3, e4, archSubAll_of_none _ _ _ hpost]
    apply String.ext
    simp [String.data_append, List.append_assoc, hnl]
  · intro p w b m hfind
    have hg1len : ("## Architecture".toList ++ w.toList ++ ['\n']).length =
        15 + w.toList.length + 1 := by
      simp [h15]
      omega
    have hdata : (p ++ "## Architecture" ++ w ++ "\n" ++ b).toList =
        p.toList ++ (("## Architecture".toList ++ w.toList ++ ['\n']) ++
          b.toList) := by
      simp [String.toList, String.data_append, List.append_assoc, hnl]
    have hpos : (p ++ "## Architecture" ++ w ++ "\n" ++ b).toList.length
        ≠ 0 := by
      rw [hdata]
      simp [List.length_append, h15]
    obtain ⟨n, hn⟩ := Nat.exists_eq_succ_of_ne_zero hpos
    have e1 : (p ++ "## Architecture" ++ w ++ "\n" ++ b).toList.take
        p.toList.length = p.toList := by
      rw [hdata]
      exact List.take_left' rfl
    have e2 : (((p ++ "## Architecture" ++ w ++ "\n" ++ b).toList.drop
        p.toList.length).take (15 + w.toList.length + 1)) =
        "## Architecture".toList ++ w.toList ++ ['\n'] := by
      rw [hdata, List.drop_left' rfl]
      exact List.take_left' hg1len
    have hlen_all : (p ++ "## Architecture" ++ w ++ "\n" ++ b).toList.length =
        p.toList.length + (15 + w.toList.length + 1) + b.toList.length := by
      rw [hdata]
      simp [List.length_append, h15]
      omega
    have e4 : (p ++ "## Architecture" ++ w ++ "\n" ++ b).toList.drop
        (p.toList.length + (15 + w.toList.length + 1) + b.toList.length + 0) =
        [] := by
      apply List.drop_eq_nil_of_le
      omega
    simp only [update_readme, hfind, hn]
    rw [archSubAll, hfind]
    have hrest : archSubAll n [] (arch_new_body m).toList = [] :=
      archSubAll_of_none n [] (arch_new_body m).toList (by decide)
    simp only [e1, e2, e4, List.take_zero, hrest]
    apply String.ext
    simp [String.data_append, List.append_assoc, hnl]

/-- Claim C8 counterexample: a document consisting of the heading alone
(no trailing newline) contains an Architecture heading, yet `update_readme`
appends a second Architecture section instead of replacing the body of the
existing one. -/
theorem spec_c8_counterexample :
    containsStr "## Architecture" "## Architecture" = true ∧
    update_readme "## Architecture" "graph LR" =
      "## Architecture" ++ "\n## Architecture\n" ++ arch_new_body "graph LR"
        ++ "\n" := by
  constructor
  · decide
  · rfl

/-- Claim C8 witness: the amended patching behaviour instantiated at a
document without the heading, at a whitespace-padded section followed by
another heading, and at a section that runs to the end of the document. -/
theorem spec_c8_amended_witness :
    (containsStr "# Hello\nBody\n" "## Architecture" = false ∧
     update_readme "# Hello\nBody\n" "graph LR" =
       "# Hello\nBody\n" ++ "\n## Architecture\n" ++ arch_new_body "graph LR"
         ++ "\n") ∧
    ((findArch ("intro\n" ++ "## Architecture" ++ "  " ++ "\n" ++ "old\n"
        ++ "\n## " ++ "Next\n").toList =
        some (("intro\n" : String).toList.length,
          15 + ("  " : String).toList.length + 1,
          ("old\n" : String).toList.length, 4) ∧
      findArch ("Next\n" : String).toList = none) ∧
     update_readme ("intro\n" ++ "## Architecture" ++ "  " ++ "\n" ++ "old\n"
        ++ "\n## " ++ "Next\n") "graph LR" =
       "intro\n" ++ "## Architecture" ++ "  " ++ "\n"
         ++ arch_new_body "graph LR" ++ "\n" ++ "\n## " ++ "Next\n") ∧
    (findArch ("start\n" ++ "## Architecture" ++ "" ++ "\n"
        ++ "tail\n").toList =
        some (("start\n" : String).toList.length,
          15 + ("" : String).toList.length + 1,
          ("tail\n" : String).toList.length, 0) ∧
     update_readme ("start\n" ++ "## Architecture" ++ "" ++ "\n" ++ "tail\n")
        "graph LR" =
       "start\n" ++ "## Architecture" ++ "" ++ "\n" ++ arch_new_body "graph LR"
         ++ "\n") :=
  ⟨⟨by decide,
    spec_c8_update_readme_amended.1 "# Hello\nBody\n" "graph LR" (by decide)⟩,
   ⟨⟨by decide, by decide⟩,
    spec_c8_update_readme_amended.2.1 "intro\n" "  " "old\n" "Next\n"
      "graph LR" (by decide) (by decide)⟩,
   ⟨by decide,
    spec_c8_update_readme_amended.2.2 "start\n" "" "tail\n" "graph LR"
      (by decide)⟩⟩

/-- One step of the rad connection loop either keeps the accumulator or
appends a single new pair with distinct endpoints that was not yet present. -/
theorem rad_build_conn_ok (m : List (String × String)) (acc : List ConnRec)
    (j : JVal) (out : List ConnRec) (h : rad_build_conn m acc j = .ok out) :
    out = acc ∨ ∃ e : ConnRec, e.cfrom ≠ e.cto ∧ e ∉ acc ∧ out = acc ++ [e] := by
  cases j with
  | null => simp [rad_build_conn, jGetDE, bind, Except.bind] at h
  | bool b => simp [rad_build_conn, jGetDE, bind, Except.bind] at h
  | num l => simp [rad_build_conn, jGetDE, bind, Except.bind] at h
  | str s => simp [rad_build_conn, jGetDE, bind, Except.bind] at h
  | arr xs => simp [rad_build_conn, jGetDE, bind, Except.bind] at h
  | obj kvs =>
    simp only [rad_build_conn, jGetDE, bind, Except.bind, pure,
      Except.pure] at h
    split_ifs at h with h1 h2 h3
    · simp only [Except.ok.injEq] at h
      exact Or.inl h.symm
    · simp only [Except.ok.injEq] at h
      exact Or.inl h.symm
    · simp only [Except.ok.injEq] at h
      simp only [Bool.and_eq_true, decide_eq_true_eq] at h2
      refine Or.inr ⟨_, h2.2, ?_, h.symm⟩
      intro hmem
      rw [← List.elem_iff] at hmem
      rw [List.contains] at h3
      exact absurd hmem (by simpa using h3)
    · simp only [Except.ok.injEq] at h
      exact Or.inl h.symm

/-- Invariant of the rad connection fold: starting from a self-loop-free
duplicate-free accumulator, a successful fold yields a self-loop-free
duplicate-free connection list. -/
theorem rad_conn_fold_inv (m : List (String × String)) (items : List JVal) :
    ∀ (acc out : List ConnRec), (∀ c ∈ acc, c.cfrom ≠ c.cto) → acc.Nodup →
      List.foldlM (rad_build_conn m) acc items = .ok out →
      (∀ c ∈ out, c.cfrom ≠ c.cto) ∧ out.Nodup := by
  induction items with
  | nil =>
    intro acc out h1 h2 h
    simp only [List.foldlM, pure, Except.pure, Except.ok.injEq] at h
    subst h
    exact ⟨h1, h2⟩
  | cons j rest ih =>
    intro acc out h1 h2 h
    simp only [List.foldlM] at h
    cases hs : rad_build_conn m acc j with
    | error e => rw [hs] at h; simp [bind, Except.bind] at h
    | ok acc1 =>
      rw [hs] at h
      simp only [bind, Except.bind] at h
      rcases rad_build_conn_ok m acc j acc1 hs with heq | ⟨e, hne, hnm, heq⟩
      · rw [heq] at h
        exact ih acc out h1 h2 h
      · rw [heq] at h
        refine ih (acc ++ [e]) out ?_ ?_ h
        · intro c hc
          rcases List.mem_append.mp hc with h' | h'
          · exact h1 c h'
          · rw [List.mem_singleton] at h'
            subst h'
            exact hne
        · simp [List.nodup_append, h2, hnm]

/-- Inversion of the resource and connection loops run. -/
theorem rad_process_rest_inversion (data : JVal) (b0 : Option String)
    (r' : RadResult) (hp : rad_process_rest data b0 = .ok r') :
    ∃ (items : List JVal) (acc : RadAcc) (citems : List JVal),
      List.foldlM rad_build_resource ⟨[], [], b0⟩ items = .ok acc ∧
      acc.resources = r'.resources ∧
      List.foldlM (rad_build_conn acc.id_to_name) [] citems =
        .ok r'.connections := by
  unfold rad_process_rest at hp
  cases hr : jGetDE data "resources" (.arr []) with
  | error e => rw [hr] at hp; simp [bind, Except.bind] at hp
  | ok resJ =>
    rw [hr] at hp
    simp only [bind, Except.bind] at hp
    cases hi : jIter resJ with
    | error e => rw [hi] at hp; simp at hp
    | ok items =>
      rw [hi] at hp
      dsimp only at hp
      cases hacc : List.foldlM rad_build_resource ⟨[], [], b0⟩ items with
      | error e => rw [hacc] at hp; simp at hp
      | ok acc =>
        rw [hacc] at hp
        dsimp only at hp
        cases hc : jGetDE data "connections" (.arr []) with
        | error e => rw [hc] at hp; simp at hp
        | ok connJ =>
          rw [hc] at hp
          dsimp only at hp
          cases hci : jIter connJ with
          | error e => rw [hci] at hp; simp at hp
          | ok citems =>
            rw [hci] at hp
            dsimp only at hp
            cases hcf : List.foldlM (rad_build_conn acc.id_to_name)
                [] citems with
            | error e => rw [hcf] at hp; simp at hp
            | ok conns =>
              rw [hcf] at hp
              dsimp only at hp
              simp only [Except.ok.injEq] at hp
              refine ⟨items, acc, citems, hacc, ?_, ?_⟩
              · rw [← hp]
              · rw [← hp]
                exact hcf

/-- Inversion of a successful run of `parse_rad_graph_output`: the
resources and the connections come from the two loop folds. -/
theorem parse_rad_ok_inversion (raw : String) (r : RadResult)
    (h : parse_rad_graph_output raw = .ok (some r)) :
    ∃ (bicep0 : Option String) (items : List JVal) (acc : RadAcc)
      (citems : List JVal),
      List.foldlM rad_build_resource ⟨[], [], bicep0⟩ items = .ok acc ∧
      acc.resources = r.resources ∧
      List.foldlM (rad_build_conn acc.id_to_name) [] citems =
        .ok r.connections := by
  simp only [parse_rad_graph_output] at h
  cases hl : jsonLoads (rad_preprocess raw) with
  | error e => rw [hl] at h; simp at h
  | ok data =>
    rw [hl] at h
    dsimp only at h
    cases hp : rad_process data with
    | error e => rw [hp] at h; simp at h
    | ok r' =>
      rw [hp] at h
      dsimp only at h
      simp only [Except.ok.injEq, Option.some.injEq] at h
      subst h
      unfold rad_process at hp
      cases hm : jGetDE data "metadata" (.obj []) with
      | error e => rw [hm] at hp; simp [bind, Except.bind] at hp
      | ok metadata =>
        rw [hm] at hp
        simp only [bind, Except.bind] at hp
        cases hsf : jGetDE metadata "sourceFiles" (.arr []) with
        | error e => rw [hsf] at hp; simp [bind, Except.bind] at hp
        | ok sfJ =>
          rw [hsf] at hp
          simp only [bind, Except.bind] at hp
          cases sfJ with
          | null => simp at hp
          | bool b => simp at hp
          | num l => simp at hp
          | str s => simp at hp
          | obj kvs => simp at hp
          | arr xs =>
            dsimp only at hp
            obtain ⟨items, acc, citems, hacc, hres, hcf⟩ :=
              rad_process_rest_inversion data _ r' hp
            exact ⟨_, items, acc, citems, hacc, hres, hcf⟩

/-- Claim C4 (amended): the structured rad-graph path emits no self-loops
and no duplicate `(from, to)` pairs; the textual Bicep path enforces
neither for hostname-resolved connections (see the counterexample). -/
theorem spec_c4_selfloop_dedup_amended (raw : String) (r : RadResult)
    (h : parse_rad_graph_output raw = .ok (some r)) :
    (∀ c ∈ r.connections, c.cfrom ≠ c.cto) ∧ r.connections.Nodup := by
  obtain ⟨b0, items, acc, citems, _, _, hconns⟩ := parse_rad_ok_inversion raw r h
  exact rad_conn_fold_inv acc.id_to_name citems [] r.connections
    (by simp) (by simp) hconns

/-- Claim C4 counterexample: a Bicep manifest whose container declares two
URL connections to its own name parses to a connection list holding the
same self-loop twice — the textual path neither drops self-loops nor
deduplicates. -/
theorem spec_c4_counterexample :
    (parse_bicep ex4bicep).2 = [⟨"a", "a"⟩, ⟨"a", "a"⟩] ∧
    ¬ (parse_bicep ex4bicep).2.Nodup ∧
    ∃ c ∈ (parse_bicep ex4bicep).2, c.cfrom = c.cto := by
  decide

/-- Claim C4 witness: the structured-path guarantee instantiated at a
small rad-graph document. -/
theorem spec_c4_amended_witness :
    parse_rad_graph_output raw4 = .ok (some r4val) ∧
    ((∀ c ∈ r4val.connections, c.cfrom ≠ c.cto) ∧
      r4val.connections.Nodup) :=
  ⟨rfl, spec_c4_selfloop_dedup_amended raw4 r4val rfl⟩

/-- One step of the rad resource loop only appends records whose category
field is the inline classification of their own type field. -/
theorem rad_build_resource_resources (acc : RadAcc) (j : JVal) (acc2 : RadAcc)
    (h : rad_build_resource acc j = .ok acc2) :
    ∀ x ∈ acc2.resources, x ∈ acc.resources ∨
      x.category = rad_category x.resource_type := by
  cases j with
  | null => simp [rad_build_resource, jGetDE, bind, Except.bind] at h
  | bool b => simp [rad_build_resource, jGetDE, bind, Except.bind] at h
  | num l => simp [rad_build_resource, jGetDE, bind, Except.bind] at h
  | str s => simp [rad_build_resource, jGetDE, bind, Except.bind] at h
  | arr xs => simp [rad_build_resource, jGetDE, bind, Except.bind] at h
  | obj kvs =>
    simp only [rad_build_resource, jGetDE, jGetE, bind, Except.bind, pure,
      Except.pure] at h
    repeat' split at h
    all_goals cases h
    all_goals (
      intro x hx
      dsimp only at hx
      rcases List.mem_append.mp hx with h' | h'
      · exact Or.inl h'
      · rw [List.mem_singleton] at h'
        subst h'
        exact Or.inr rfl)

/-- Invariant of the rad resource fold: every resource of a successful run
carries the category computed from its own type string. -/
theorem rad_res_fold_inv (items : List JVal) :
    ∀ (acc out : RadAcc),
      (∀ x ∈ acc.resources, x.category = rad_category x.resource_type) →
      List.foldlM rad_build_resource acc items = .ok out →
      ∀ x ∈ out.resources, x.category = rad_category x.resource_type := by
  induction items with
  | nil =>
    intro acc out h1 h
    simp only [List.foldlM, pure, Except.pure, Except.ok.injEq] at h
    subst h
    exact h1
  | cons j rest ih =>
    intro acc out h1 h
    simp only [List.foldlM] at h
    cases hs : rad_build_resource acc j with
    | error e => rw [hs] at h; simp [bind, Except.bind] at h
    | ok acc1 =>
      rw [hs] at h
      simp only [bind, Except.bind] at h
      refine ih acc1 out ?_ h
      intro x hx
      rcases rad_build_resource_resources acc j acc1 hs x hx with h' | h'
      · exact h1 x h'
      · exact h'

/-- Every record produced by `parse_bicep` carries the category computed
from its own type string. -/
theorem parse_bicep_category (content : String) :
    ∀ r ∈ (parse_bicep content).1,
      r.category = bicep_category r.resource_type := by
  intro r hr
  simp only [parse_bicep] at hr
  obtain ⟨mm, _, hmr⟩ := List.mem_map.mp hr
  rw [← hmr]
  rfl

/-- Claim C7: every classifier of the scripts yields one of the four fixed
tags, all three inline classifiers agree with `categorize`, and both
parsers assign each record the category computed from its declared type
string alone. -/
theorem spec_c7_category_taxonomy :
    (∀ s : String,
      categorize s ∈ ["container", "datastore", "application", "other"] ∧
      bicep_category s = categorize s ∧ rad_category s = categorize s) ∧
    (∀ (content : String) (r : ResourceRec), r ∈ (parse_bicep content).1 →
      r.category = bicep_category r.resource_type) ∧
    (∀ (raw : String) (rr : RadResult) (x : ResourceRec),
      parse_rad_graph_output raw = .ok (some rr) → x ∈ rr.resources →
      x.category = rad_category x.resource_type) := by
  refine ⟨?_, parse_bicep_category, ?_⟩
  · intro s
    refine ⟨?_, ?_, ?_⟩
    · simp only [categorize]
      split_ifs <;> simp
    · simp only [bicep_category, categorize]
      by_cases h1 : containsStr (lowerStr s) "containers" = true <;>
      by_cases h2 : containsStr (lowerStr s) "rediscaches" = true <;>
      by_cases h3 : containsStr (lowerStr s) "sqldatabases" = true <;>
      by_cases h4 : containsStr (lowerStr s) "mongodatabases" = true <;>
      by_cases h5 : containsStr (lowerStr s) "applications" = true <;>
      simp [h1, h2, h3, h4, h5]
    · rfl
  · intro raw rr x h hx
    obtain ⟨b0, items, acc, citems, hacc, hres, _⟩ :=
      parse_rad_ok_inversion raw rr h
    refine rad_res_fold_inv items ⟨[], [], b0⟩ acc (by simp) hacc x ?_
    rw [hres]
    exact hx

/-- Record produced by `parse_bicep ex4bicep`. -/
def ex4rec : ResourceRec :=
  { symbolic_name := "a", display_name := "a",
    resource_type := "Applications.Core/containers", image := none,
    port := none, category := "container", line_number := "1",
    source_file := none }

/-- Claim C7 witness: the taxonomy statements instantiated at the records
that the two parsers extract from concrete inputs. -/
theorem spec_c7_taxonomy_witness :
    (categorize "Applications.Core/containers" ∈
      ["container", "datastore", "application", "other"] ∧
     bicep_category "Applications.Core/containers" =
       categorize "Applications.Core/containers" ∧
     rad_category "Applications.Core/containers" =
       categorize "Applications.Core/containers") ∧
    (ex4rec ∈ (parse_bicep ex4bicep).1 ∧
     ex4rec.category = bicep_category ex4rec.resource_type) ∧
    (parse_rad_graph_output raw4 = .ok (some r4val) ∧
     r4rec ∈ r4val.resources ∧
     r4rec.category = rad_category r4rec.resource_type) :=
  ⟨spec_c7_category_taxonomy.1 "Applications.Core/containers",
   ⟨by decide,
    spec_c7_category_taxonomy.2.1 ex4bicep ex4rec (by decide)⟩,
   ⟨rfl, by decide,
    spec_c7_category_taxonomy.2.2 raw4 r4val r4rec rfl (by decide)⟩⟩
